import Mathlib

/-!
Verification development for the swift-asyra voice-assistant endpoint.

The repository is a Next.js route handler orchestrating five external
services (speech-to-text, embeddings, vector index, chat completion,
text-to-speech).  Three revisions of the handler are embedded here:

* `POST_direct` — the direct-embedding, text-output revision
  (src/unnamed/part_000);
* `POST_kw1`    — the keyword-strategy, voice-output revision
  (src/unnamed/part_001);
* `POST_v2`     — the keyword-strategy, voice-output revision with
  defensive checks and a catch-all error handler (src/unnamed/part_002).

External services are modelled as oracles in an `Env` record; each call
either succeeds with a value or fails (`none` = the JS call raised /
rejected).  Every handler returns its HTTP response (or the JS error it
throws) together with the ordered trace of external calls it performed.
-/

namespace Asyra

/-! ## JavaScript string primitives

`encodeURIComponent` / percent-decoding are modelled at the byte level:
a character outside the unreserved set is replaced by the `%XX` hex
escapes of its UTF-8 bytes, exactly as in ECMA-262. -/

/-- UTF-8 encoding of one Unicode scalar value, as a list of byte values. -/
def utf8EncodeChar (c : Char) : List Nat :=
  if c.toNat < 0x80 then [c.toNat]
  else if c.toNat < 0x800 then
    [0xC0 + c.toNat / 64, 0x80 + c.toNat % 64]
  else if c.toNat < 0x10000 then
    [0xE0 + c.toNat / 4096, 0x80 + c.toNat / 64 % 64, 0x80 + c.toNat % 64]
  else
    [0xF0 + c.toNat / 262144, 0x80 + c.toNat / 4096 % 64, 0x80 + c.toNat / 64 % 64,
      0x80 + c.toNat % 64]

/-- UTF-8 encoding of a character sequence. -/
def utf8EncodeList : List Char → List Nat
  | [] => []
  | c :: cs => utf8EncodeChar c ++ utf8EncodeList cs

/-- Continuation of a two-byte UTF-8 sequence with lead byte `b`:
returns the decoded scalar and the remaining bytes. -/
def utf8Step2 (b : Nat) : List Nat → Option (Char × List Nat)
  | [] => none
  | b1 :: rest =>
    if (0x80 ≤ b1 ∧ b1 < 0xC0) ∧ 0x80 ≤ (b - 0xC0) * 64 + (b1 - 0x80) then
      some (Char.ofNat ((b - 0xC0) * 64 + (b1 - 0x80)), rest)
    else none

/-- Continuation of a three-byte UTF-8 sequence with lead byte `b`. -/
def utf8Step3 (b : Nat) : List Nat → Option (Char × List Nat)
  | [] => none
  | [_] => none
  | b1 :: b2 :: rest =>
    if (0x80 ≤ b1 ∧ b1 < 0xC0) ∧ (0x80 ≤ b2 ∧ b2 < 0xC0) ∧
        0x800 ≤ (b - 0xE0) * 4096 + (b1 - 0x80) * 64 + (b2 - 0x80) ∧
        ((b - 0xE0) * 4096 + (b1 - 0x80) * 64 + (b2 - 0x80) < 0xD800 ∨
          0xE000 ≤ (b - 0xE0) * 4096 + (b1 - 0x80) * 64 + (b2 - 0x80)) then
      some (Char.ofNat ((b - 0xE0) * 4096 + (b1 - 0x80) * 64 + (b2 - 0x80)), rest)
    else none

/-- Continuation of a four-byte UTF-8 sequence with lead byte `b`. -/
def utf8Step4 (b : Nat) : List Nat → Option (Char × List Nat)
  | [] => none
  | [_] => none
  | [_, _] => none
  | b1 :: b2 :: b3 :: rest =>
    if (0x80 ≤ b1 ∧ b1 < 0xC0) ∧ (0x80 ≤ b2 ∧ b2 < 0xC0) ∧ (0x80 ≤ b3 ∧ b3 < 0xC0) ∧
        0x10000 ≤ (b - 0xF0) * 262144 + (b1 - 0x80) * 4096 + (b2 - 0x80) * 64 + (b3 - 0x80) ∧
        (b - 0xF0) * 262144 + (b1 - 0x80) * 4096 + (b2 - 0x80) * 64 + (b3 - 0x80) <
          0x110000 then
      some
        (Char.ofNat ((b - 0xF0) * 262144 + (b1 - 0x80) * 4096 + (b2 - 0x80) * 64 + (b3 - 0x80)),
          rest)
    else none

/-- Decodes one UTF-8 scalar from lead byte `b` followed by `bs`; `none` on
any ill-formed prefix (stray continuation byte, truncated sequence,
overlong form, surrogate, or out-of-range scalar). -/
def utf8Step (b : Nat) (bs : List Nat) : Option (Char × List Nat) :=
  if b < 0x80 then some (Char.ofNat b, bs)
  else if b < 0xC0 then none
  else if b < 0xE0 then utf8Step2 b bs
  else if b < 0xF0 then utf8Step3 b bs
  else if b < 0xF8 then utf8Step4 b bs
  else none

/-- Fuel-driven UTF-8 decoding loop.  Each step consumes at least one byte,
so fuel equal to the list length never runs out. -/
def utf8DecodeFuel : Nat → List Nat → Option (List Char)
  | _, [] => some []
  | 0, _ :: _ => none
  | fuel + 1, b :: bs =>
    match utf8Step b bs with
    | none => none
    | some (c, rest) => (utf8DecodeFuel fuel rest).map (fun cs => c :: cs)

/-- UTF-8 decoding of a byte sequence; `none` on any ill-formed sequence. -/
def utf8Decode (bs : List Nat) : Option (List Char) :=
  utf8DecodeFuel bs.length bs

/-- Characters `encodeURIComponent` leaves unescaped:
`A-Z a-z 0-9 - _ . ! ~ * \x27 ( )` (ECMA-262 `uriUnescaped`). -/
def isUnreservedChar (c : Char) : Bool :=
  (65 ≤ c.toNat && c.toNat ≤ 90) || (97 ≤ c.toNat && c.toNat ≤ 122) ||
    (48 ≤ c.toNat && c.toNat ≤ 57) || c.toNat = 45 || c.toNat = 95 || c.toNat = 46 ||
    c.toNat = 33 || c.toNat = 126 || c.toNat = 42 || c.toNat = 39 || c.toNat = 40 ||
    c.toNat = 41

/-- Upper-case hex digit for a value `< 16`. -/
def hexDigitChar (n : Nat) : Char :=
  if n < 10 then Char.ofNat (48 + n) else Char.ofNat (55 + n)

/-- The `%XX` escape of one byte. -/
def percentEncodeByte (b : Nat) : List Char :=
  ['%', hexDigitChar (b / 16), hexDigitChar (b % 16)]

/-- The `%XX` escapes of a byte sequence. -/
def percentEncodeBytes : List Nat → List Char
  | [] => []
  | b :: bs => percentEncodeByte b ++ percentEncodeBytes bs

/-- Character-by-character percent encoding of a character sequence. -/
def percentEncodeChars : List Char → List Char
  | [] => []
  | c :: cs =>
    (if isUnreservedChar c then [c] else percentEncodeBytes (utf8EncodeChar c)) ++
      percentEncodeChars cs

/-- JavaScript `encodeURIComponent`. -/
def encodeURIComponent (s : String) : String :=
  (percentEncodeChars s.data).asString

/-- Value of one hex digit (either case); `none` for a non-hex character. -/
def hexVal? (c : Char) : Option Nat :=
  if 48 ≤ c.toNat ∧ c.toNat ≤ 57 then some (c.toNat - 48)
  else if 65 ≤ c.toNat ∧ c.toNat ≤ 70 then some (c.toNat - 55)
  else if 97 ≤ c.toNat ∧ c.toNat ≤ 102 then some (c.toNat - 87)
  else none

/-- Reads a percent-encoded character sequence back into the byte sequence
it denotes: `%XX` contributes the byte `XX`, any other character
contributes its own UTF-8 bytes.  `none` on a malformed escape. -/
def percentDecodeBytes : List Char → Option (List Nat)
  | [] => some []
  | c :: rest =>
    if c = '%' then
      match rest with
      | [] => none
      | [_] => none
      | h :: l :: rest2 =>
        (hexVal? h).bind fun hv =>
          (hexVal? l).bind fun lv =>
            (percentDecodeBytes rest2).map fun bs => (hv * 16 + lv) :: bs
    else (percentDecodeBytes rest).map fun bs => utf8EncodeChar c ++ bs

/-- JavaScript `decodeURIComponent`; `none` models a thrown `URIError`. -/
def decodeURIComponent (s : String) : Option String :=
  (percentDecodeBytes s.data).bind fun bs =>
    (utf8Decode bs).map fun cs => cs.asString

/-! ### Round-trip lemmas -/

theorem toNat_ofNat_valid {n : Nat} (h : n.isValidChar) : (Char.ofNat n).toNat = n := by
  simp [Char.ofNat, Char.ofNatAux, h]
  rfl

theorem char_valid (c : Char) : c.toNat < 0xD800 ∨ (0xE000 ≤ c.toNat ∧ c.toNat < 0x110000) := by
  rcases c.valid with h | ⟨h1, h2⟩
  · exact Or.inl h
  · refine Or.inr ⟨?_, h2⟩
    have h1' : 57343 < c.toNat := h1
    omega

theorem utf8Step_encode (c : Char) (bs : List Nat) (b : Nat) (rest : List Nat)
    (h : utf8EncodeChar c ++ bs = b :: rest) : utf8Step b rest = some (c, bs) := by
  have hval := char_valid c
  by_cases h1 : c.toNat < 0x80
  · rw [utf8EncodeChar, if_pos h1, List.singleton_append] at h
    injection h with hb hrest
    subst hb
    subst hrest
    rw [utf8Step, if_pos h1, Char.ofNat_toNat]
  · by_cases h2 : c.toNat < 0x800
    · rw [utf8EncodeChar, if_neg h1, if_pos h2, List.cons_append, List.cons_append,
        List.nil_append] at h
      injection h with hb hrest
      subst hb
      subst hrest
      rw [utf8Step, if_neg (by omega), if_neg (by omega), if_pos (by omega), utf8Step2]
      rw [if_pos (by refine ⟨⟨?_, ?_⟩, ?_⟩ <;> omega)]
      have hn : (0xC0 + c.toNat / 64 - 0xC0) * 64 + (0x80 + c.toNat % 64 - 0x80) = c.toNat := by
        omega
      rw [hn, Char.ofNat_toNat]
    · by_cases h3 : c.toNat < 0x10000
      · rw [utf8EncodeChar, if_neg h1, if_neg h2, if_pos h3, List.cons_append, List.cons_append,
          List.cons_append, List.nil_append] at h
        injection h with hb hrest
        subst hb
        subst hrest
        rw [utf8Step, if_neg (by omega), if_neg (by omega), if_neg (by omega),
          if_pos (by omega), utf8Step3]
        rw [if_pos (by refine ⟨⟨?_, ?_⟩, ⟨?_, ?_⟩, ?_, ?_⟩ <;> omega)]
        have hn : (0xE0 + c.toNat / 4096 - 0xE0) * 4096 + (0x80 + c.toNat / 64 % 64 - 0x80) * 64 +
            (0x80 + c.toNat % 64 - 0x80) = c.toNat := by omega
        rw [hn, Char.ofNat_toNat]
      · have h4 : c.toNat < 0x110000 := by omega
        rw [utf8EncodeChar, if_neg h1, if_neg h2, if_neg h3, List.cons_append, List.cons_append,
          List.cons_append, List.cons_append, List.nil_append] at h
        injection h with hb hrest
        subst hb
        subst hrest
        rw [utf8Step, if_neg (by omega), if_neg (by omega), if_neg (by omega),
          if_neg (by omega), if_pos (by omega), utf8Step4]
        rw [if_pos (by refine ⟨⟨?_, ?_⟩, ⟨?_, ?_⟩, ⟨?_, ?_⟩, ?_, ?_⟩ <;> omega)]
        have hn : (0xF0 + c.toNat / 262144 - 0xF0) * 262144 +
            (0x80 + c.toNat / 4096 % 64 - 0x80) * 4096 + (0x80 + c.toNat / 64 % 64 - 0x80) * 64 +
            (0x80 + c.toNat % 64 - 0x80) = c.toNat := by omega
        rw [hn, Char.ofNat_toNat]

theorem utf8EncodeChar_ne_nil (c : Char) : ∃ b ds, utf8EncodeChar c = b :: ds := by
  rw [utf8EncodeChar]
  split_ifs <;> exact ⟨_, _, rfl⟩

theorem utf8DecodeFuel_encode (cs : List Char) :
    ∀ fuel : Nat, (utf8EncodeList cs).length ≤ fuel →
      utf8DecodeFuel fuel (utf8EncodeList cs) = some cs := by
  induction cs with
  | nil =>
    intro fuel _
    cases fuel <;> rfl
  | cons c cs ih =>
    intro fuel hf
    obtain ⟨b, ds, hbd⟩ := utf8EncodeChar_ne_nil c
    have hlist : utf8EncodeList (c :: cs) = b :: (ds ++ utf8EncodeList cs) := by
      rw [utf8EncodeList, hbd, List.cons_append]
    cases fuel with
    | zero =>
      rw [hlist] at hf
      simp at hf
    | succ f =>
      have hlen : (utf8EncodeList cs).length ≤ f := by
        rw [hlist] at hf
        simp only [List.length_cons, List.length_append] at hf
        omega
      have hstep : utf8Step b (ds ++ utf8EncodeList cs) = some (c, utf8EncodeList cs) :=
        utf8Step_encode c (utf8EncodeList cs) b _ (by rw [hbd, List.cons_append])
      rw [hlist, utf8DecodeFuel, hstep]
      simp only []
      rw [ih f hlen]
      rfl

theorem utf8Decode_encodeList (cs : List Char) :
    utf8Decode (utf8EncodeList cs) = some cs :=
  utf8DecodeFuel_encode cs _ le_rfl

theorem utf8EncodeChar_lt_256 (c : Char) : ∀ b ∈ utf8EncodeChar c, b < 256 := by
  have hval := char_valid c
  intro b hb
  rw [utf8EncodeChar] at hb
  split_ifs at hb <;>
    simp only [List.mem_cons, List.not_mem_nil, or_false] at hb <;> omega

theorem hexVal_hexDigitChar {n : Nat} (h : n < 16) : hexVal? (hexDigitChar n) = some n := by
  by_cases h10 : n < 10
  · rw [hexDigitChar, if_pos h10, hexVal?, toNat_ofNat_valid (Or.inl (by omega)),
      if_pos (by omega)]
    simp
  · rw [hexDigitChar, if_neg h10, hexVal?, toNat_ofNat_valid (Or.inl (by omega)),
      if_neg (by omega), if_pos (by omega)]
    congr 1
    omega

theorem percentDecode_encodeByte {b : Nat} (hb : b < 256) (rest : List Char) :
    percentDecodeBytes (percentEncodeByte b ++ rest) =
      (percentDecodeBytes rest).map (fun bs => b :: bs) := by
  rw [percentEncodeByte, List.cons_append, List.cons_append, List.singleton_append,
    percentDecodeBytes.eq_def]
  simp only []
  rw [if_pos trivial, hexVal_hexDigitChar (by omega), hexVal_hexDigitChar (by omega),
    Option.some_bind, Option.some_bind]
  have hn : b / 16 * 16 + b % 16 = b := by omega
  rw [hn]

theorem percentDecode_encodeBytes {bytes : List Nat} (hb : ∀ b ∈ bytes, b < 256)
    (rest : List Char) :
    percentDecodeBytes (percentEncodeBytes bytes ++ rest) =
      (percentDecodeBytes rest).map (fun bs => bytes ++ bs) := by
  induction bytes with
  | nil =>
    cases h : percentDecodeBytes rest <;> simp [percentEncodeBytes, h]
  | cons b bytes ih =>
    rw [percentEncodeBytes, List.append_assoc,
      percentDecode_encodeByte (hb b (by simp)) _,
      ih (fun x hx => hb x (by simp [hx]))]
    cases h : percentDecodeBytes rest <;> simp

theorem unreserved_bounds {c : Char} (h : isUnreservedChar c = true) :
    c.toNat < 128 ∧ c.toNat ≠ 37 := by
  simp only [isUnreservedChar, Bool.or_eq_true, Bool.and_eq_true, decide_eq_true_eq] at h
  omega

theorem percentDecode_encodeChars (cs : List Char) :
    percentDecodeBytes (percentEncodeChars cs) = some (utf8EncodeList cs) := by
  induction cs with
  | nil => rfl
  | cons c cs ih =>
    rw [percentEncodeChars]
    by_cases hu : isUnreservedChar c
    · have hb := unreserved_bounds hu
      rw [if_pos hu, List.singleton_append, percentDecodeBytes.eq_def]
      simp only []
      rw [if_neg (fun he => by rw [he] at hb; simp at hb), ih, Option.map_some',
        utf8EncodeList]
    · rw [if_neg hu,
        percentDecode_encodeBytes (utf8EncodeChar_lt_256 c) (percentEncodeChars cs), ih,
        Option.map_some', utf8EncodeList]

theorem data_asString (l : List Char) : (l.asString).data = l := rfl

theorem asString_data (s : String) : s.data.asString = s := rfl

/-- ECMA-262 round trip: decoding an `encodeURIComponent` result recovers
the original string. -/
theorem decode_encodeURIComponent (s : String) :
    decodeURIComponent (encodeURIComponent s) = some s := by
  rw [decodeURIComponent, encodeURIComponent, data_asString, percentDecode_encodeChars,
    Option.some_bind, utf8Decode_encodeList, Option.map_some', asString_data]

/-! ## More JavaScript string primitives -/

/-- Whitespace stripped by `String.prototype.trim` (the code points the
handlers can actually meet: ASCII whitespace plus NBSP, BOM, LS, PS). -/
def isJsWhitespace (c : Char) : Bool :=
  c.toNat = 32 || c.toNat = 9 || c.toNat = 10 || c.toNat = 13 || c.toNat = 12 ||
    c.toNat = 11 || c.toNat = 0xA0 || c.toNat = 0xFEFF || c.toNat = 0x2028 ||
    c.toNat = 0x2029

def dropLeadingWs : List Char → List Char
  | [] => []
  | c :: cs => if isJsWhitespace c then dropLeadingWs cs else c :: cs

/-- JavaScript `String.prototype.trim`. -/
def jsTrim (s : String) : String :=
  (dropLeadingWs (dropLeadingWs s.data.reverse).reverse).asString

def splitCommaAux : List Char → List Char → List (List Char)
  | [], acc => [acc.reverse]
  | c :: cs, acc =>
    if c = ',' then acc.reverse :: splitCommaAux cs [] else splitCommaAux cs (c :: acc)

/-- JavaScript `String.prototype.split(",")`; in particular
`"".split(",") = [""]`. -/
def jsSplitComma (s : String) : List String :=
  (splitCommaAux s.data []).map List.asString

/-- JavaScript string coercion of a possibly-null string, as performed by
template literals and by `encodeURIComponent` on its argument. -/
def jsToString : Option String → String
  | none => "null"
  | some s => s

/-- JavaScript `Array.prototype.join` coerces `undefined`/`null` elements to the
empty string. -/
def joinElem : Option String → String
  | none => ""
  | some s => s

/-- JavaScript `Array.prototype.join("\n")`. -/
def joinNewline : List String → String
  | [] => ""
  | [s] => s
  | s :: t :: rest => s ++ "\n" ++ joinNewline (t :: rest)

/-! ### A small JSON reader and writer

`extractKeywords` in src/unnamed/part_001 parses the model reply with
`JSON.parse` and accepts only arrays; the prompt requests a JSON array of
keyword strings.  `jsonStringArray?` models `JSON.parse` restricted to
arrays of JSON strings; every other document yields `none`, which the
handler treats exactly like a non-array result (both throw).
`analyzeQueryResults` serializes the query results with `JSON.stringify`;
`stringifyResults` reproduces that serialization (a property holding an
`undefined` value is omitted, as `JSON.stringify` does). -/

def isJsonWs (c : Char) : Bool :=
  c.toNat = 32 || c.toNat = 9 || c.toNat = 10 || c.toNat = 13

def skipJsonWs : List Char → List Char
  | [] => []
  | c :: cs => if isJsonWs c then skipJsonWs cs else c :: cs

def jsonEscapeChar? (e : Char) : Option Char :=
  if e = '"' then some '"'
  else if e = '\\' then some '\\'
  else if e = '/' then some '/'
  else if e.toNat = 110 then some (Char.ofNat 10)
  else if e.toNat = 116 then some (Char.ofNat 9)
  else if e.toNat = 114 then some (Char.ofNat 13)
  else none

/-- Reads the body of a JSON string after its opening quote; returns the
decoded characters and the remainder after the closing quote. -/
def parseJsonStringAux : List Char → Option (List Char × List Char)
  | [] => none
  | c :: cs =>
    if c = '"' then some ([], cs)
    else if c = '\\' then
      match cs with
      | [] => none
      | e :: cs2 =>
        (jsonEscapeChar? e).bind fun ec =>
          (parseJsonStringAux cs2).map fun p => (ec :: p.1, p.2)
    else (parseJsonStringAux cs).map fun p => (c :: p.1, p.2)

/-- Reads a comma-separated list of JSON strings up to the closing `]`. -/
def parseJsonItems : Nat → List Char → Option (List String × List Char)
  | 0, _ => none
  | fuel + 1, cs =>
    match skipJsonWs cs with
    | [] => none
    | c :: cs2 =>
      if c = '"' then
        (parseJsonStringAux cs2).bind fun p =>
          match skipJsonWs p.2 with
          | [] => none
          | d :: rest2 =>
            if d = ',' then
              (parseJsonItems fuel rest2).map fun q => (p.1.asString :: q.1, q.2)
            else if d = ']' then some ([p.1.asString], rest2)
            else none
      else none

/-- JavaScript `JSON.parse` restricted to arrays of JSON strings. -/
def jsonStringArray? (s : String) : Option (List String) :=
  match skipJsonWs s.data with
  | [] => none
  | c :: cs =>
    if c = '[' then
      match skipJsonWs cs with
      | [] => none
      | d :: ds =>
        if d = ']' then
          if (skipJsonWs ds).isEmpty then some [] else none
        else
          (parseJsonItems (cs.length + 1) (d :: ds)).bind fun p =>
            if (skipJsonWs p.2).isEmpty then some p.1 else none
    else none

def jsonEscChar (c : Char) : List Char :=
  if c = '"' then ['\\', '"']
  else if c = '\\' then ['\\', '\\']
  else if c.toNat = 10 then ['\\', 'n']
  else if c.toNat = 9 then ['\\', 't']
  else if c.toNat = 13 then ['\\', 'r']
  else [c]

/-- JavaScript `JSON.stringify` of a string value (quoted and escaped). -/
def jsonEscapeString (s : String) : String :=
  ('"' :: s.data.flatMap jsonEscChar ++ ['"']).asString

/-! ## Data model (section 3 of the spec) -/

inductive Role
  | user
  | assistant
deriving DecidableEq

def roleStr : Role → String
  | .user => "user"
  | .assistant => "assistant"

/-- A caller-supplied conversation turn (`{role, content}`). -/
structure ConversationTurn where
  role : Role
  content : String
deriving DecidableEq

/-- A message sent to the chat-completion service. -/
structure ChatMsg where
  role : String
  content : String
deriving DecidableEq

def turnMsg (t : ConversationTurn) : ChatMsg :=
  ⟨roleStr t.role, t.content⟩

/-- The `choices[i].message` part of a chat completion; `content` is nullable. -/
structure ChatChoiceMsg where
  content : Option String
deriving DecidableEq

/-- A chat-completion response. -/
structure ChatCompletion where
  choices : List ChatChoiceMsg
deriving DecidableEq

/-- A raw vector-index match (`{id, score, metadata}`);
`metadataText` is `metadata?.text`, which can be absent. -/
structure IndexMatch where
  id : String
  score : Int
  metadataText : Option String
deriving DecidableEq

/-- The mapped form `{id, score, text}` built by the handlers. -/
structure RetrievedSnippet where
  id : String
  score : Int
  text : Option String
deriving DecidableEq

/-- One keyword together with its index matches (keyword strategy). -/
structure KeywordQueryResult where
  keyword : String
  results : List RetrievedSnippet
deriving DecidableEq

/-- Result of the Cartesia `fetch`: HTTP success flag, body bytes, and the
error text read when the status is not ok. -/
structure TtsResult where
  ok : Bool
  body : List Nat
  errText : String
deriving DecidableEq

/-- The `input` form field after schema validation: text or an (opaque)
audio file. -/
inductive InputField
  | text (s : String)
  | file (f : Nat)
deriving DecidableEq

/-- One raw `message` form value after `JSON.parse`: an object with string
fields `role` and `content`, or anything else (`malformed`). -/
inductive MsgEntry
  | entry (role : String) (content : String)
  | malformed
deriving DecidableEq

/-- The multipart form body: the `input` field (if present) and the list
of repeated `message` values in order (empty when the field is absent,
which is how `FormData.getAll` reports a missing field). -/
structure FormData where
  input : Option InputField
  messageEntries : List MsgEntry
deriving DecidableEq

/-- The schema output: `{input, message}`. -/
structure ParsedData where
  input : InputField
  message : List ConversationTurn
deriving DecidableEq

inductive JsError
  | typeError (msg : String)
  | jsError (msg : String)
deriving DecidableEq

/-- One external call, in trace order.  `chatKeywords`, `chatAnalyze` and
`chatFinal` are the three call sites of the same chat-completion service:
keyword extraction, result analysis, and the responder. -/
inductive CallEvent
  | stt (file : Nat)
  | embed (query : String)
  | indexQuery (vector : List Int) (topK : Nat)
  | chatKeywords (msgs : List ChatMsg)
  | chatAnalyze (msgs : List ChatMsg)
  | chatFinal (msgs : List ChatMsg)
  | tts (transcript : Option String)
deriving DecidableEq

inductive Body
  | empty
  | text (s : String)
  | stream (bytes : List Nat)
deriving DecidableEq

structure HttpResponse where
  status : Nat
  body : Body
  headers : List (String × String)
deriving DecidableEq

/-- The external world: one oracle per outbound service.  `none` models a
raised/rejected call.  `locationStr` / `timeStr` are the strings produced
by the `location()` / `time()` helpers (request-metadata I/O, advisory
text only). -/
structure Env where
  stt : Nat → Option String
  embed : String → Option (List Int)
  query : List Int → Nat → Option (List IndexMatch)
  chat : List ChatMsg → Option ChatCompletion
  tts : Option String → Option TtsResult
  locationStr : String
  timeStr : String

/-! ## Request decoding (zod schema) -/

/-- Validation of one `message` entry:
`z.object({role: z.enum(["user", "assistant"]), content: z.string()})`. -/
def parseTurn : MsgEntry → Option ConversationTurn
  | .entry r c =>
    if r = "user" then some ⟨Role.user, c⟩
    else if r = "assistant" then some ⟨Role.assistant, c⟩
    else none
  | .malformed => none

/-- Validation of the `input` field,
`z.union([zfd.text(), zfd.file()])`: `zfd.text()` maps an empty string to
`undefined`, so an empty text input fails the union. -/
def parseInput : InputField → Option InputField
  | .text s => if s = "" then none else some (.text s)
  | .file f => some (.file f)

/-- Validation `schema.safeParse` on the decoded form.  `zfd.repeatableOfType`
preprocesses a missing repeated field to `[]`, so a request with no
`message` entries parses successfully with an empty history. -/
def schemaParse (form : FormData) : Option ParsedData :=
  match form.input with
  | none => none
  | some i =>
    match parseInput i with
    | none => none
    | some i2 =>
      match form.messageEntries.mapM parseTurn with
      | none => none
      | some msgs => some ⟨i2, msgs⟩

/-! ## Pipeline stages -/

/-- Function `getTranscript` of part_001 (and the final route.ts revision): text
passes through verbatim; audio goes to the speech-recognition service
once, the result is trimmed, and an empty trim or a raised call yields
`null` (`text.trim() || null` with a catch-all returning `null`). -/
def getTranscript (env : Env) : InputField → Option String × List CallEvent
  | .text s => (some s, [])
  | .file f =>
    match env.stt f with
    | none => (none, [CallEvent.stt f])
    | some t => (if jsTrim t = "" then none else some (jsTrim t), [CallEvent.stt f])

/-- Function `getTranscript` of part_002: the audio branch is a placeholder that
returns a fixed string without calling any service. -/
def getTranscriptStub : InputField → Option String
  | .file _ => some "Example transcript from audio file"
  | .text s => some s

/-- Function `getQueryEmbedding`: one embedding call; a failed call throws
(part_002 wraps it in `new Error("Failed to generate query embedding.")`,
part_000/part_001 rethrow the SDK error — both are a thrown `jsError`
here).  The trace is always the single embedding call. -/
def getQueryEmbedding (env : Env) (query : String) :
    Except JsError (List Int) × List CallEvent :=
  ((match env.embed query with
    | some v => .ok v
    | none => .error (.jsError "Failed to generate query embedding.")),
    [CallEvent.embed query])

/-- Function `queryIndex` of part_000: one vector-index query, results mapped to
`{id, score, text: metadata?.text}`; a failed call is logged and
rethrown. -/
def queryIndex (env : Env) (queryVector : List Int) (topK : Nat) :
    Except JsError (List RetrievedSnippet) × List CallEvent :=
  ((match env.query queryVector topK with
    | some results => .ok (results.map fun r => ⟨r.id, r.score, r.metadataText⟩)
    | none => .error (.jsError "index query failed")),
    [CallEvent.indexQuery queryVector topK])

def kwSystemPrompt2 : String :=
  "You are an AI model specialized in keyword extraction. Given a transcript, extract the maximum 5 most relevant and specific keywords from the transcript. No need to use double or single quotes. Return the keywords as a comma-separated string."

def kwMsgs2 (transcript : String) : List ChatMsg :=
  [⟨"system", kwSystemPrompt2⟩, ⟨"user", "Transcript: " ++ transcript⟩]

/-- The keyword post-processing of part_002 (and the first two route.ts
revisions): trim the reply, split on commas, trim each piece, keep the
first five (`slice(0, 5)`). -/
def splitKeywords (keywordMessage : String) : List String :=
  ((jsSplitComma (jsTrim keywordMessage)).map jsTrim).take 5

/-- The result of part_002's `extractKeywords` as a function of the chat
reply: a missing choice, null or empty content, or a raised call is
caught and rethrown as `new Error("Keyword extraction failed.")`. -/
def extractKeywords2Result (reply : Option ChatCompletion) : Except JsError (List String) :=
  match reply with
  | none => .error (.jsError "Keyword extraction failed.")
  | some comp =>
    match comp.choices.head? with
    | none => .error (.jsError "Keyword extraction failed.")
    | some choice =>
      match choice.content with
      | none => .error (.jsError "Keyword extraction failed.")
      | some keywordMessage =>
        if keywordMessage = "" then .error (.jsError "Keyword extraction failed.")
        else .ok (splitKeywords keywordMessage)

/-- Function `extractKeywords` of part_002: exactly one chat call, whose reply is
post-processed by `extractKeywords2Result`. -/
def extractKeywords2 (env : Env) (transcript : String) :
    Except JsError (List String) × List CallEvent :=
  (extractKeywords2Result (env.chat (kwMsgs2 transcript)),
    [CallEvent.chatKeywords (kwMsgs2 transcript)])

def kwSystemPrompt1 : String :=
  "You are an AI model specialized in keyword extraction. Given a user\x27s query and a related transcript, extract the five most relevant and specific keywords from the transcript that align with the user\x27s query. Return the keywords as a JSON array."

def kwMsgs1 (query transcript : String) : List ChatMsg :=
  [⟨"system", kwSystemPrompt1⟩,
    ⟨"user", "Query: " ++ query ++ "\n\nTranscript: " ++ transcript⟩]

/-- Function `extractKeywords` of part_001: one chat call whose reply is parsed
with `JSON.parse` and must be an array; the first five entries are kept.
`choices[0]` is read without a check (a missing choice is a TypeError);
null content reaches `JSON.parse(null)`, which parses to the JSON value
`null` and then fails the `Array.isArray` check. -/
def extractKeywordsJsonResult (reply : Option ChatCompletion) : Except JsError (List String) :=
  match reply with
  | none => .error (.jsError "keyword extraction call failed")
  | some comp =>
    match comp.choices.head? with
    | none => .error (.typeError "Cannot read properties of undefined")
    | some choice =>
      match choice.content with
      | none => .error (.jsError "Unexpected format for keyword extraction output.")
      | some content =>
        match jsonStringArray? content with
        | none => .error (.jsError "Unexpected format for keyword extraction output.")
        | some keywords => .ok (keywords.take 5)

def extractKeywordsJson (env : Env) (query transcript : String) :
    Except JsError (List String) × List CallEvent :=
  (extractKeywordsJsonResult (env.chat (kwMsgs1 query transcript)),
    [CallEvent.chatKeywords (kwMsgs1 query transcript)])

/-- Function `queryIndexForKeywords` (part_001/part_002): sequentially, for each
keyword, one embedding call then one index query with the given `topK`;
the results are tagged with their keyword in order.  Any failure inside
an iteration aborts the whole loop (part_002 rethrows
`new Error("Failed to query index for keyword \"…\".")`). -/
def queryIndexForKeywords (env : Env) :
    List String → Nat → Except JsError (List KeywordQueryResult) × List CallEvent
  | [], _ => (.ok [], [])
  | kw :: rest, topK =>
    match getQueryEmbedding env kw with
    | (.error _, log1) =>
      (.error (.jsError ("Failed to query index for keyword \"" ++ kw ++ "\".")), log1)
    | (.ok keywordEmbedding, log1) =>
      match env.query keywordEmbedding topK with
      | none =>
        (.error (.jsError ("Failed to query index for keyword \"" ++ kw ++ "\".")),
          log1 ++ [CallEvent.indexQuery keywordEmbedding topK])
      | some results =>
        match queryIndexForKeywords env rest topK with
        | (.error e, log2) =>
          (.error e, log1 ++ CallEvent.indexQuery keywordEmbedding topK :: log2)
        | (.ok rs, log2) =>
          (.ok (⟨kw, results.map fun r => ⟨r.id, r.score, r.metadataText⟩⟩ :: rs),
            log1 ++ CallEvent.indexQuery keywordEmbedding topK :: log2)

def stringifySnippet (sn : RetrievedSnippet) : String :=
  match sn.text with
  | some t =>
    "\x7b\"id\":" ++ jsonEscapeString sn.id ++ ",\"score\":" ++ toString sn.score ++
      ",\"text\":" ++ jsonEscapeString t ++ "\x7d"
  | none =>
    "\x7b\"id\":" ++ jsonEscapeString sn.id ++ ",\"score\":" ++ toString sn.score ++ "\x7d"

def stringifyJoin : List String → String
  | [] => ""
  | [s] => s
  | s :: t :: rest => s ++ "," ++ stringifyJoin (t :: rest)

def stringifyKQR (r : KeywordQueryResult) : String :=
  "\x7b\"keyword\":" ++ jsonEscapeString r.keyword ++ ",\"results\":[" ++
    stringifyJoin (r.results.map stringifySnippet) ++ "]\x7d"

/-- JavaScript `JSON.stringify(keywordSearchResults)`. -/
def stringifyResults (rs : List KeywordQueryResult) : String :=
  "[" ++ stringifyJoin (rs.map stringifyKQR) ++ "]"

def analyzeSystemPrompt : String :=
  "You are a specialized assistant tasked with breaking down query results into digestible insights. Analyze the following results and provide a structured summary."

def analyzeMsgs (results : List KeywordQueryResult) : List ChatMsg :=
  [⟨"system", analyzeSystemPrompt⟩, ⟨"user", stringifyResults results⟩]

/-! ## Personas and responder message lists -/

/-- The persona system prompt of part_000 (with the `location()` /
`time()` interpolations). -/
def personaDirect (loc time : String) : String :=
  "- You are Asyra, a friendly and helpful voice assistant for Asycd pronounced \x27ACID\x27\n            - Respond briefly to the user\x27s request, and do not provide unnecessary information.\n            - Use the information provided to create factually correct responses well measured.\n            - You do not have access to up-to-date information, so you should not provide real-time data.\n            - You are not capable of performing actions other than responding to the user.\n            - Do not use markdown, emojis, or other formatting in your responses. Respond in a way easily spoken by text-to-speech software.\n            - User location is " ++
    loc ++
    ".\n            - The current time is " ++
    time ++
    ".\n            - Your large language model is Llama 3, created by Meta, the 8 billion parameter version. It is hosted on Groq, an AI infrastructure company that builds fast inference technology.\n            - Your text-to-speech model is Sonic, created and hosted by Cartesia, a company that builds fast and realistic speech synthesis technology.\n            - You are built with Next.js and hosted on Vercel.\n- You will receive context regarding about Asycd and a query. Use the context to answer concisely and progressively to the user"

/-- The persona system prompt of part_001. -/
def personaKw1 (loc time : String) : String :=
  "- You are Asyra, a friendly and helpful voice assistant for Asycd pronounced \x27ACID\x27.\n            - Respond briefly to the user\x27s request, and do not provide unnecessary information.\n            - Use the information provided to create factually correct responses well measured.\n            - You do not have access to up-to-date information, so you should not provide real-time data.\n            - You are not capable of performing actions other than responding to the user.\n            - Do not use markdown, emojis, or other formatting in your responses. Respond in a way easily spoken by text-to-speech software.\n            - User location is " ++
    loc ++
    ".\n            - The current time is " ++
    time ++
    ".\n            - Your large language model is Llama 3, created by Meta, the 8 billion parameter version. It is hosted on Groq, an AI infrastructure company that builds fast inference technology.\n            - Your text-to-speech model is Sonic, created and hosted by Cartesia, a company that builds fast and realistic speech synthesis technology.\n            - You are built with Next.js and hosted on Vercel.\n            - You will receive context regarding about Asycd and a query. Use the context to answer concisely and progressively to the user."

/-- The persona system prompt of part_002. -/
def personaV2 (loc time : String) : String :=
  "You are Asyra, a friendly and helpful voice assistant for Asycd pronounced \x27ACID\x27.\n        - Respond briefly and directly to the user\x27s request.\n        - Use the provided information to create factually correct responses without mentioning that you received this information.\n        - You do not have access to up-to-date information, so you should not provide real-time data.\n        - Do not use markdown, emojis, or other formatting in your responses. Respond in a way easily spoken by text-to-speech software.\n        - User location is " ++
    loc ++
    ".\n        - The current time is " ++
    time ++
    ".\n        - Your large language model is Llama 3, created by Meta, the 8 billion parameter version. It is hosted on Groq, an AI infrastructure company that builds fast inference technology.\n        - Your text-to-speech model is Sonic, created and hosted by Cartesia, a company that builds fast and realistic speech synthesis technology.\n        - You are built with Next.js and hosted on Vercel.\n        - Answer concisely and progressively to the user without mentioning that the response is based on any context."

/-- The `enhancedPrompt` of part_000:
`` `${transcript}\n\nAdditional Context:\n${additionalContext}` ``
where `additionalContext` joins the snippet texts with newlines. -/
def enhancedPromptDirect (transcript : String) (queryResults : List RetrievedSnippet) : String :=
  transcript ++ "\n\nAdditional Context:\n" ++
    joinNewline (queryResults.map fun r => joinElem r.text)

/-- The responder message list of part_000: persona, then the caller
history spread in order, then the user message with the enhanced
prompt. -/
def directFinalMsgs (env : Env) (data : ParsedData) (transcript : String)
    (queryResults : List RetrievedSnippet) : List ChatMsg :=
  ChatMsg.mk "system" (personaDirect env.locationStr env.timeStr) ::
    (data.message.map turnMsg ++ [⟨"user", enhancedPromptDirect transcript queryResults⟩])

/-- The `enhancedPrompt` of part_001:
`` `${transcript}\n\nAnalyzed Context:\n${analyzedResults}` ``. -/
def enhancedPromptKw1 (transcript analyzed : String) : String :=
  transcript ++ "\n\nAnalyzed Context:\n" ++ analyzed

/-- The responder message list of part_001. -/
def kw1FinalMsgs (env : Env) (data : ParsedData) (transcript analyzed : String) : List ChatMsg :=
  ChatMsg.mk "system" (personaKw1 env.locationStr env.timeStr) ::
    (data.message.map turnMsg ++ [⟨"user", enhancedPromptKw1 transcript analyzed⟩])

/-- The `enhancedPrompt` of part_002 (with its `Query:` prefix and trailing
instruction). -/
def enhancedPromptV2 (transcript analyzed : String) : String :=
  "Query: " ++ transcript ++ "\n\nAnalyzed Context:\n" ++ analyzed ++
    ". Do not mention the retrieval of any context or any search you might conduct for extra info."

/-- The responder message list of part_002. -/
def v2FinalMsgs (env : Env) (data : ParsedData) (transcript analyzed : String) : List ChatMsg :=
  ChatMsg.mk "system" (personaV2 env.locationStr env.timeStr) ::
    (data.message.map turnMsg ++ [⟨"user", enhancedPromptV2 transcript analyzed⟩])

/-! ## The POST handlers -/

def invalidRequestResponse : HttpResponse := ⟨400, Body.text "Invalid request", []⟩

def invalidAudioResponse : HttpResponse := ⟨400, Body.text "Invalid audio", []⟩

def internalErrorResponse : HttpResponse := ⟨500, Body.text "Internal server error", []⟩

def voiceFailedResponse : HttpResponse := ⟨500, Body.text "Voice synthesis failed", []⟩

/-- The success headers: percent-encoded transcript and reply. -/
def successHeaders (transcript response : String) : List (String × String) :=
  [("X-Transcript", encodeURIComponent transcript),
    ("X-Response", encodeURIComponent response)]

/-- JavaScript `new Response(response, ...)` with a nullable body string: a null
body is an empty 200 body. -/
def jsBody : Option String → Body
  | none => Body.empty
  | some s => Body.text s

/-- The part_000 `POST` handler: schema validation, transcript, one
transcript embedding, one index query (`topK = 5`), one chat completion
(`choices[0].message.content` read without a null check), then a text
response carrying the percent-encoded transcript and reply as headers.
part_000 has no try/catch, so a thrown error escapes (`.error`). -/
def POST_direct (env : Env) (form : FormData) :
    Except JsError HttpResponse × List CallEvent :=
  match schemaParse form with
  | none => (.ok invalidRequestResponse, [])
  | some data =>
    match getTranscript env data.input with
    | (none, logT) => (.ok invalidAudioResponse, logT)
    | (some transcript, logT) =>
      if transcript = "" then (.ok invalidAudioResponse, logT)
      else
        match getQueryEmbedding env transcript with
        | (.error e, logE) => (.error e, logT ++ logE)
        | (.ok queryEmbedding, logE) =>
          match queryIndex env queryEmbedding 5 with
          | (.error e, logQ) => (.error e, logT ++ logE ++ logQ)
          | (.ok queryResults, logQ) =>
            match env.chat (directFinalMsgs env data transcript queryResults) with
            | none =>
              (.error (.jsError "chat completion call failed"),
                logT ++ logE ++ logQ ++
                  [CallEvent.chatFinal (directFinalMsgs env data transcript queryResults)])
            | some completion =>
              match completion.choices.head? with
              | none =>
                (.error (.typeError "Cannot read properties of undefined"),
                  logT ++ logE ++ logQ ++
                    [CallEvent.chatFinal (directFinalMsgs env data transcript queryResults)])
              | some choice =>
                (.ok ⟨200, jsBody choice.content,
                    successHeaders transcript (jsToString choice.content)⟩,
                  logT ++ logE ++ logQ ++
                    [CallEvent.chatFinal (directFinalMsgs env data transcript queryResults)])

/-- The part_001 `POST` handler (keyword strategy, voice output):
schema validation, transcript, keyword extraction from
`data.message[0].content` (a TypeError on an empty history) and the
transcript, per-keyword index queries, result analysis, the responder
call (content read without a null check), then the Cartesia call; a
non-ok Cartesia status yields 500 "Voice synthesis failed", otherwise
the voice stream is returned with the percent-encoded headers.
part_001 has no try/catch, so a thrown error escapes (`.error`). -/
def POST_kw1 (env : Env) (form : FormData) :
    Except JsError HttpResponse × List CallEvent :=
  match schemaParse form with
  | none => (.ok invalidRequestResponse, [])
  | some data =>
    match getTranscript env data.input with
    | (none, logT) => (.ok invalidAudioResponse, logT)
    | (some transcript, logT) =>
      if transcript = "" then (.ok invalidAudioResponse, logT)
      else
        match data.message.head? with
        | none => (.error (.typeError "Cannot read properties of undefined"), logT)
        | some turn0 =>
          match extractKeywordsJson env turn0.content transcript with
          | (.error e, logK) => (.error e, logT ++ logK)
          | (.ok extractedKeywords, logK) =>
            match queryIndexForKeywords env extractedKeywords 5 with
            | (.error e, logQ) => (.error e, logT ++ logK ++ logQ)
            | (.ok keywordSearchResults, logQ) =>
              match env.chat (analyzeMsgs keywordSearchResults) with
              | none =>
                (.error (.jsError "analyze call failed"),
                  logT ++ logK ++ logQ ++
                    [CallEvent.chatAnalyze (analyzeMsgs keywordSearchResults)])
              | some breakdown =>
                match breakdown.choices.head? with
                | none =>
                  (.error (.typeError "Cannot read properties of undefined"),
                    logT ++ logK ++ logQ ++
                      [CallEvent.chatAnalyze (analyzeMsgs keywordSearchResults)])
                | some bchoice =>
                  match
                    env.chat
                      (kw1FinalMsgs env data transcript (jsToString bchoice.content)) with
                  | none =>
                    (.error (.jsError "chat completion call failed"),
                      logT ++ logK ++ logQ ++
                        [CallEvent.chatAnalyze (analyzeMsgs keywordSearchResults),
                          CallEvent.chatFinal
                            (kw1FinalMsgs env data transcript (jsToString bchoice.content))])
                  | some completion =>
                    match completion.choices.head? with
                    | none =>
                      (.error (.typeError "Cannot read properties of undefined"),
                        logT ++ logK ++ logQ ++
                          [CallEvent.chatAnalyze (analyzeMsgs keywordSearchResults),
                            CallEvent.chatFinal
                              (kw1FinalMsgs env data transcript (jsToString bchoice.content))])
                    | some choice =>
                      match env.tts choice.content with
                      | none =>
                        (.error (.jsError "fetch failed"),
                          logT ++ logK ++ logQ ++
                            [CallEvent.chatAnalyze (analyzeMsgs keywordSearchResults),
                              CallEvent.chatFinal
                                (kw1FinalMsgs env data transcript (jsToString bchoice.content)),
                              CallEvent.tts choice.content])
                      | some voice =>
                        if voice.ok then
                          (.ok ⟨200, Body.stream voice.body,
                              successHeaders transcript (jsToString choice.content)⟩,
                            logT ++ logK ++ logQ ++
                              [CallEvent.chatAnalyze (analyzeMsgs keywordSearchResults),
                                CallEvent.chatFinal
                                  (kw1FinalMsgs env data transcript (jsToString bchoice.content)),
                                CallEvent.tts choice.content])
                        else
                          (.ok voiceFailedResponse,
                            logT ++ logK ++ logQ ++
                              [CallEvent.chatAnalyze (analyzeMsgs keywordSearchResults),
                                CallEvent.chatFinal
                                  (kw1FinalMsgs env data transcript (jsToString bchoice.content)),
                                CallEvent.tts choice.content])

/-- The part_002 `POST` handler (keyword strategy, voice output, full
checks): the body after transcript extraction runs inside `try { … }
catch { return 500 "Internal server error" }`, so every thrown error —
keyword extraction, per-keyword retrieval, analysis, an empty or missing
completion content, a rejected Cartesia fetch — becomes that 500
response.  A Cartesia response with a non-ok status is answered inside
the try block with 500 "Voice synthesis failed".  part_002 uses the
placeholder `getTranscriptStub`, which performs no external call. -/
def POST_v2 (env : Env) (form : FormData) : HttpResponse × List CallEvent :=
  match schemaParse form with
  | none => (invalidRequestResponse, [])
  | some data =>
    match getTranscriptStub data.input with
    | none => (invalidAudioResponse, [])
    | some transcript =>
      if transcript = "" then (invalidAudioResponse, [])
      else
        match extractKeywords2 env transcript with
        | (.error _, logK) => (internalErrorResponse, logK)
        | (.ok extractedKeywords, logK) =>
          match queryIndexForKeywords env extractedKeywords 5 with
          | (.error _, logQ) => (internalErrorResponse, logK ++ logQ)
          | (.ok keywordSearchResults, logQ) =>
            match env.chat (analyzeMsgs keywordSearchResults) with
            | none =>
              (internalErrorResponse,
                logK ++ logQ ++ [CallEvent.chatAnalyze (analyzeMsgs keywordSearchResults)])
            | some breakdown =>
              match breakdown.choices.head? with
              | none =>
                (internalErrorResponse,
                  logK ++ logQ ++ [CallEvent.chatAnalyze (analyzeMsgs keywordSearchResults)])
              | some bchoice =>
                match bchoice.content with
                | none =>
                  (internalErrorResponse,
                    logK ++ logQ ++ [CallEvent.chatAnalyze (analyzeMsgs keywordSearchResults)])
                | some analyzedResults =>
                  if analyzedResults = "" then
                    (internalErrorResponse,
                      logK ++ logQ ++ [CallEvent.chatAnalyze (analyzeMsgs keywordSearchResults)])
                  else
                    match env.chat (v2FinalMsgs env data transcript analyzedResults) with
                    | none =>
                      (internalErrorResponse,
                        logK ++ logQ ++
                          [CallEvent.chatAnalyze (analyzeMsgs keywordSearchResults),
                            CallEvent.chatFinal (v2FinalMsgs env data transcript analyzedResults)])
                    | some completion =>
                      match completion.choices.head? with
                      | none =>
                        (internalErrorResponse,
                          logK ++ logQ ++
                            [CallEvent.chatAnalyze (analyzeMsgs keywordSearchResults),
                              CallEvent.chatFinal
                                (v2FinalMsgs env data transcript analyzedResults)])
                      | some choice =>
                        match choice.content with
                        | none =>
                          (internalErrorResponse,
                            logK ++ logQ ++
                              [CallEvent.chatAnalyze (analyzeMsgs keywordSearchResults),
                                CallEvent.chatFinal
                                  (v2FinalMsgs env data transcript analyzedResults)])
                        | some response =>
                          if response = "" then
                            (internalErrorResponse,
                              logK ++ logQ ++
                                [CallEvent.chatAnalyze (analyzeMsgs keywordSearchResults),
                                  CallEvent.chatFinal
                                    (v2FinalMsgs env data transcript analyzedResults)])
                          else
                            match env.tts (some response) with
                            | none =>
                              (internalErrorResponse,
                                logK ++ logQ ++
                                  [CallEvent.chatAnalyze (analyzeMsgs keywordSearchResults),
                                    CallEvent.chatFinal
                                      (v2FinalMsgs env data transcript analyzedResults),
                                    CallEvent.tts (some response)])
                            | some voice =>
                              if voice.ok then
                                (⟨200, Body.stream voice.body,
                                    successHeaders transcript response⟩,
                                  logK ++ logQ ++
                                    [CallEvent.chatAnalyze (analyzeMsgs keywordSearchResults),
                                      CallEvent.chatFinal
                                        (v2FinalMsgs env data transcript analyzedResults),
                                      CallEvent.tts (some response)])
                              else
                                (voiceFailedResponse,
                                  logK ++ logQ ++
                                    [CallEvent.chatAnalyze (analyzeMsgs keywordSearchResults),
                                      CallEvent.chatFinal
                                        (v2FinalMsgs env data transcript analyzedResults),
                                      CallEvent.tts (some response)])

/-! ## Helper lemmas about the keyword loop -/

/-- The external-call failure of one keyword iteration: the embedding
call raises, or it succeeds and the index query raises. -/
def keywordCallFails (env : Env) (kw : String) : Prop :=
  env.embed kw = none ∨ ∃ v, env.embed kw = some v ∧ env.query v 5 = none

theorem extractKeywords2_ok {env : Env} {t : String} {kws : List String}
    {log : List CallEvent} (h : extractKeywords2 env t = (.ok kws, log)) :
    (∃ km, kws = splitKeywords km) ∧ log = [CallEvent.chatKeywords (kwMsgs2 t)] := by
  rw [extractKeywords2] at h
  injection h with h1 h2
  refine ⟨?_, h2.symm⟩
  rw [extractKeywords2Result.eq_def] at h1
  split at h1
  · cases h1
  · split at h1
    · cases h1
    · split at h1
      · cases h1
      · split at h1
        · cases h1
        · injection h1 with h1
          exact ⟨_, h1.symm⟩

theorem splitKeywords_length (km : String) : (splitKeywords km).length ≤ 5 := by
  rw [splitKeywords]
  exact List.length_take_le 5 _

theorem queryIndexForKeywords_keywords (env : Env) (kws : List String) (topK : Nat) :
    ∀ res log, queryIndexForKeywords env kws topK = (.ok res, log) →
      res.map KeywordQueryResult.keyword = kws := by
  induction kws with
  | nil =>
    intro res log h
    rw [queryIndexForKeywords] at h
    injection h with h1 h2
    injection h1 with h1
    rw [← h1]
    rfl
  | cons kw rest ih =>
    intro res log h
    rw [queryIndexForKeywords] at h
    simp only [getQueryEmbedding] at h
    cases hge : env.embed kw with
    | none =>
      rw [hge] at h
      simp only [] at h
      simp at h
    | some v =>
      rw [hge] at h
      simp only [] at h
      cases hq : env.query v topK with
      | none =>
        rw [hq] at h
        simp only [] at h
        simp at h
      | some results =>
        rw [hq] at h
        simp only [] at h
        cases hrec : queryIndexForKeywords env rest topK with
        | mk r2 log2 =>
          rw [hrec] at h
          cases r2 with
          | error e =>
            simp only [] at h
            simp at h
          | ok rs =>
            simp only [] at h
            injection h with h1 h2
            injection h1 with h1
            rw [← h1, List.map_cons]
            rw [ih rs log2 hrec]

theorem queryIndexForKeywords_fails (env : Env) (kws : List String)
    (hfail : ∃ kw ∈ kws, keywordCallFails env kw) :
    ∃ e logQ, queryIndexForKeywords env kws 5 = (.error e, logQ) := by
  induction kws with
  | nil =>
    obtain ⟨kw, hmem, -⟩ := hfail
    exact absurd hmem (List.not_mem_nil kw)
  | cons kw rest ih =>
    cases hge : env.embed kw with
    | none =>
      refine ⟨.jsError ("Failed to query index for keyword \"" ++ kw ++ "\"."),
        [CallEvent.embed kw], ?_⟩
      rw [queryIndexForKeywords]
      simp [getQueryEmbedding, hge]
    | some v =>
      cases hq : env.query v 5 with
      | none =>
        refine ⟨.jsError ("Failed to query index for keyword \"" ++ kw ++ "\"."),
          [CallEvent.embed kw, CallEvent.indexQuery v 5], ?_⟩
        rw [queryIndexForKeywords]
        simp [getQueryEmbedding, hge, hq]
      | some results =>
        have hrest : ∃ k ∈ rest, keywordCallFails env k := by
          obtain ⟨k, hkmem, hfl⟩ := hfail
          rcases List.mem_cons.mp hkmem with rfl | hmem
          · rcases hfl with hnone | ⟨v2, hv2, hq2⟩
            · rw [hge] at hnone
              cases hnone
            · rw [hge] at hv2
              injection hv2 with hv2
              subst hv2
              rw [hq] at hq2
              cases hq2
          · exact ⟨k, hmem, hfl⟩
        obtain ⟨e, logQ, hrec⟩ := ih hrest
        refine ⟨e, [CallEvent.embed kw] ++ CallEvent.indexQuery v 5 :: logQ, ?_⟩
        rw [queryIndexForKeywords]
        simp [getQueryEmbedding, hge, hq, hrec]

theorem queryIndexForKeywords_events (env : Env) (kws : List String) (topK : Nat) :
    ∀ ev ∈ (queryIndexForKeywords env kws topK).2,
      (∃ q, ev = CallEvent.embed q) ∨ ∃ v k, ev = CallEvent.indexQuery v k := by
  induction kws with
  | nil =>
    intro ev hev
    rw [queryIndexForKeywords] at hev
    simp at hev
  | cons kw rest ih =>
    intro ev hev
    rw [queryIndexForKeywords] at hev
    simp only [getQueryEmbedding] at hev
    cases hge : env.embed kw with
    | none =>
      rw [hge] at hev
      simp at hev
      exact Or.inl ⟨kw, hev⟩
    | some v =>
      rw [hge] at hev
      simp only [] at hev
      cases hq : env.query v topK with
      | none =>
        rw [hq] at hev
        simp at hev
        rcases hev with rfl | rfl
        · exact Or.inl ⟨kw, rfl⟩
        · exact Or.inr ⟨v, topK, rfl⟩
      | some results =>
        rw [hq] at hev
        simp only [] at hev
        cases hrec : queryIndexForKeywords env rest topK with
        | mk r2 log2 =>
          rw [hrec] at hev
          have hmem : ev ∈ [CallEvent.embed kw] ++ CallEvent.indexQuery v topK :: log2 := by
            cases r2 <;> simpa using hev
          simp only [List.mem_append, List.mem_cons, List.mem_singleton,
            List.not_mem_nil, or_false] at hmem
          rcases hmem with rfl | rfl | hm
          · exact Or.inl ⟨kw, rfl⟩
          · exact Or.inr ⟨v, topK, rfl⟩
          · have h2 : (queryIndexForKeywords env rest topK).2 = log2 := by rw [hrec]
            exact ih ev (h2 ▸ hm)

/-! ## The claims -/

/-- C2: for every successful keyword-strategy run, the extracted keyword
list has length at most 5, and `queryIndexForKeywords` produces exactly
one `KeywordQueryResult` per keyword, in the same order as the extracted
keyword list. -/
theorem keyword_list_shape (env : Env) (transcript : String) (kws : List String)
    (logK : List CallEvent) (res : List KeywordQueryResult) (logQ : List CallEvent)
    (hk : extractKeywords2 env transcript = (.ok kws, logK))
    (hq : queryIndexForKeywords env kws 5 = (.ok res, logQ)) :
    kws.length ≤ 5 ∧ res.map KeywordQueryResult.keyword = kws := by
  obtain ⟨⟨km, hkm⟩, -⟩ := extractKeywords2_ok hk
  exact ⟨hkm ▸ splitKeywords_length km, queryIndexForKeywords_keywords env kws 5 res logQ hq⟩

/-- A benign environment in which every external call succeeds; the chat
oracle answers by call site (recognized through the system prompt). -/
def envOk : Env :=
  { stt := fun _ => some "  What is Asycd?  "
    embed := fun _ => some [1, 2]
    query := fun _ _ => some [⟨"1", 9, some "Asycd is a platform for X."⟩]
    chat := fun msgs =>
      if msgs.head?.map ChatMsg.content = some kwSystemPrompt2 then
        some ⟨[⟨some "alpha, beta"⟩]⟩
      else if msgs.head?.map ChatMsg.content = some kwSystemPrompt1 then
        some ⟨[⟨some "[\"alpha\", \"beta\"]"⟩]⟩
      else if msgs.head?.map ChatMsg.content = some analyzeSystemPrompt then
        some ⟨[⟨some "digest"⟩]⟩
      else some ⟨[⟨some "Hello!"⟩]⟩
    tts := fun _ => some ⟨true, [0, 1, 2], ""⟩
    locationStr := "London, ENG, GB"
    timeStr := "12:00:00 PM" }

def snippetOk : RetrievedSnippet := ⟨"1", 9, some "Asycd is a platform for X."⟩

set_option maxRecDepth 100000 in
theorem keyword_list_shape_witness :
    (["alpha", "beta"] : List String).length ≤ 5 ∧
      ([⟨"alpha", [snippetOk]⟩, ⟨"beta", [snippetOk]⟩] :
          List KeywordQueryResult).map KeywordQueryResult.keyword = ["alpha", "beta"] :=
  keyword_list_shape envOk "What is Asycd?" ["alpha", "beta"]
    [CallEvent.chatKeywords (kwMsgs2 "What is Asycd?")]
    [⟨"alpha", [snippetOk]⟩, ⟨"beta", [snippetOk]⟩]
    [CallEvent.embed "alpha", CallEvent.indexQuery [1, 2] 5,
      CallEvent.embed "beta", CallEvent.indexQuery [1, 2] 5]
    rfl rfl

/-- C1: for every keyword-strategy request in which the embedding call or
the vector-index query for any one keyword fails, the entire request
fails with HTTP 500 and no chat-completion (responder) call is made; no
partial per-keyword results are used. -/
theorem keyword_retrieval_failfast (env : Env) (form : FormData) (data : ParsedData)
    (transcript : String) (kws : List String) (logK : List CallEvent)
    (hparse : schemaParse form = some data)
    (ht : getTranscriptStub data.input = some transcript)
    (htne : transcript ≠ "")
    (hk : extractKeywords2 env transcript = (.ok kws, logK))
    (hfail : ∃ kw ∈ kws, keywordCallFails env kw) :
    (POST_v2 env form).1.status = 500 ∧
      ∀ msgs, CallEvent.chatFinal msgs ∉ (POST_v2 env form).2 := by
  obtain ⟨e, logQ, hq⟩ := queryIndexForKeywords_fails env kws hfail
  have hpost : POST_v2 env form = (internalErrorResponse, logK ++ logQ) := by
    rw [POST_v2, hparse]
    simp only []
    rw [ht]
    simp only []
    rw [if_neg htne, hk]
    simp only []
    rw [hq]
  rw [hpost]
  refine ⟨rfl, ?_⟩
  intro msgs hmem
  simp only [List.mem_append] at hmem
  obtain ⟨-, hlogK⟩ := extractKeywords2_ok hk
  rcases hmem with hm | hm
  · rw [hlogK] at hm
    simp at hm
  · have h2 : (queryIndexForKeywords env kws 5).2 = logQ := by rw [hq]
    rcases queryIndexForKeywords_events env kws 5 (CallEvent.chatFinal msgs) (h2 ▸ hm) with
      ⟨q, hqq⟩ | ⟨v, k, hvk⟩
    · simp at hqq
    · simp at hvk

/-- An environment whose embedding oracle always raises, while keyword
extraction succeeds. -/
def envEmbedFails : Env :=
  { stt := fun _ => none
    embed := fun _ => none
    query := fun _ _ => some []
    chat := fun msgs =>
      if msgs.head?.map ChatMsg.content = some kwSystemPrompt2 then
        some ⟨[⟨some "alpha, beta"⟩]⟩
      else some ⟨[⟨some "ok"⟩]⟩
    tts := fun _ => some ⟨true, [], ""⟩
    locationStr := "L"
    timeStr := "T" }

set_option maxRecDepth 100000 in
theorem keyword_retrieval_failfast_witness :
    (POST_v2 envEmbedFails ⟨some (.text "tell me"), []⟩).1.status = 500 ∧
      ∀ msgs,
        CallEvent.chatFinal msgs ∉ (POST_v2 envEmbedFails ⟨some (.text "tell me"), []⟩).2 :=
  keyword_retrieval_failfast envEmbedFails ⟨some (.text "tell me"), []⟩
    ⟨.text "tell me", []⟩ "tell me" ["alpha", "beta"]
    [CallEvent.chatKeywords (kwMsgs2 "tell me")] rfl rfl (by decide) rfl
    ⟨"alpha", by simp, Or.inl rfl⟩

/-! ## Success inversion of the handlers -/

theorem POST_direct_success (env : Env) (form : FormData) (resp : HttpResponse)
    (log : List CallEvent) (h : POST_direct env form = (.ok resp, log))
    (h200 : resp.status = 200) :
    ∃ data transcript logT emb logE snips logQ completion choice,
      schemaParse form = some data ∧
      getTranscript env data.input = (some transcript, logT) ∧
      transcript ≠ "" ∧
      getQueryEmbedding env transcript = (.ok emb, logE) ∧
      queryIndex env emb 5 = (.ok snips, logQ) ∧
      env.chat (directFinalMsgs env data transcript snips) = some completion ∧
      completion.choices.head? = some choice ∧
      resp = ⟨200, jsBody choice.content, successHeaders transcript (jsToString choice.content)⟩ ∧
      log = logT ++ logE ++ logQ ++
        [CallEvent.chatFinal (directFinalMsgs env data transcript snips)] := by
  cases hparse : schemaParse form with
  | none =>
    rw [POST_direct, hparse] at h
    simp only [] at h
    injection h with h1 h2
    injection h1 with h1
    subst h1
    exact absurd h200 (by simp [invalidRequestResponse])
  | some data =>
    rw [POST_direct, hparse] at h
    simp only [] at h
    cases htr : getTranscript env data.input with
    | mk t0 logT =>
      rw [htr] at h
      cases t0 with
      | none =>
        simp only [] at h
        injection h with h1 h2
        injection h1 with h1
        subst h1
        exact absurd h200 (by simp [invalidAudioResponse])
      | some transcript =>
        simp only [] at h
        by_cases htne : transcript = ""
        · rw [if_pos htne] at h
          injection h with h1 h2
          injection h1 with h1
          subst h1
          exact absurd h200 (by simp [invalidAudioResponse])
        · rw [if_neg htne] at h
          cases hge : getQueryEmbedding env transcript with
          | mk e logE =>
            rw [hge] at h
            cases e with
            | error err =>
              simp only [] at h
              injection h with h1 h2
              injection h1
            | ok emb =>
              simp only [] at h
              cases hqi : queryIndex env emb 5 with
              | mk q logQ =>
                rw [hqi] at h
                cases q with
                | error err =>
                  simp only [] at h
                  injection h with h1 h2
                  injection h1
                | ok snips =>
                  simp only [] at h
                  cases hchat : env.chat (directFinalMsgs env data transcript snips) with
                  | none =>
                    rw [hchat] at h
                    simp only [] at h
                    injection h with h1 h2
                    injection h1
                  | some completion =>
                    rw [hchat] at h
                    simp only [] at h
                    cases hch : completion.choices.head? with
                    | none =>
                      rw [hch] at h
                      simp only [] at h
                      injection h with h1 h2
                      injection h1
                    | some choice =>
                      rw [hch] at h
                      simp only [] at h
                      injection h with h1 h2
                      injection h1 with h1
                      exact ⟨data, transcript, logT, emb, logE, snips, logQ, completion, choice,
                        rfl, htr, htne, hge, hqi, hchat, hch, h1.symm, h2.symm⟩

theorem POST_v2_success (env : Env) (form : FormData) (resp : HttpResponse)
    (log : List CallEvent) (h : POST_v2 env form = (resp, log)) (h200 : resp.status = 200) :
    ∃ data transcript kws logK results logQ breakdown bchoice analyzed completion choice
      response voice,
      schemaParse form = some data ∧
      getTranscriptStub data.input = some transcript ∧
      transcript ≠ "" ∧
      extractKeywords2 env transcript = (.ok kws, logK) ∧
      queryIndexForKeywords env kws 5 = (.ok results, logQ) ∧
      env.chat (analyzeMsgs results) = some breakdown ∧
      breakdown.choices.head? = some bchoice ∧
      bchoice.content = some analyzed ∧ analyzed ≠ "" ∧
      env.chat (v2FinalMsgs env data transcript analyzed) = some completion ∧
      completion.choices.head? = some choice ∧
      choice.content = some response ∧ response ≠ "" ∧
      env.tts (some response) = some voice ∧ voice.ok = true ∧
      resp = ⟨200, Body.stream voice.body, successHeaders transcript response⟩ ∧
      log = logK ++ logQ ++
        [CallEvent.chatAnalyze (analyzeMsgs results),
          CallEvent.chatFinal (v2FinalMsgs env data transcript analyzed),
          CallEvent.tts (some response)] := by
  cases hparse : schemaParse form with
  | none =>
    rw [POST_v2, hparse] at h
    simp only [] at h
    injection h with h1 h2
    subst h1
    exact absurd h200 (by simp [invalidRequestResponse])
  | some data =>
    rw [POST_v2, hparse] at h
    simp only [] at h
    cases ht : getTranscriptStub data.input with
    | none =>
      rw [ht] at h
      simp only [] at h
      injection h with h1 h2
      subst h1
      exact absurd h200 (by simp [invalidAudioResponse])
    | some transcript =>
      rw [ht] at h
      simp only [] at h
      by_cases htne : transcript = ""
      · rw [if_pos htne] at h
        injection h with h1 h2
        subst h1
        exact absurd h200 (by simp [invalidAudioResponse])
      · rw [if_neg htne] at h
        cases hk : extractKeywords2 env transcript with
        | mk ek logK =>
          rw [hk] at h
          cases ek with
          | error err =>
            simp only [] at h
            injection h with h1 h2
            subst h1
            exact absurd h200 (by simp [internalErrorResponse])
          | ok kws =>
            simp only [] at h
            cases hq : queryIndexForKeywords env kws 5 with
            | mk qr logQ =>
              rw [hq] at h
              cases qr with
              | error err =>
                simp only [] at h
                injection h with h1 h2
                subst h1
                exact absurd h200 (by simp [internalErrorResponse])
              | ok results =>
                simp only [] at h
                cases hana : env.chat (analyzeMsgs results) with
                | none =>
                  rw [hana] at h
                  simp only [] at h
                  injection h with h1 h2
                  subst h1
                  exact absurd h200 (by simp [internalErrorResponse])
                | some breakdown =>
                  rw [hana] at h
                  simp only [] at h
                  cases hbch : breakdown.choices.head? with
                  | none =>
                    rw [hbch] at h
                    simp only [] at h
                    injection h with h1 h2
                    subst h1
                    exact absurd h200 (by simp [internalErrorResponse])
                  | some bchoice =>
                    rw [hbch] at h
                    simp only [] at h
                    cases hbc : bchoice.content with
                    | none =>
                      rw [hbc] at h
                      simp only [] at h
                      injection h with h1 h2
                      subst h1
                      exact absurd h200 (by simp [internalErrorResponse])
                    | some analyzed =>
                      rw [hbc] at h
                      simp only [] at h
                      by_cases hane : analyzed = ""
                      · rw [if_pos hane] at h
                        injection h with h1 h2
                        subst h1
                        exact absurd h200 (by simp [internalErrorResponse])
                      · rw [if_neg hane] at h
                        cases hchat : env.chat (v2FinalMsgs env data transcript analyzed) with
                        | none =>
                          rw [hchat] at h
                          simp only [] at h
                          injection h with h1 h2
                          subst h1
                          exact absurd h200 (by simp [internalErrorResponse])
                        | some completion =>
                          rw [hchat] at h
                          simp only [] at h
                          cases hch : completion.choices.head? with
                          | none =>
                            rw [hch] at h
                            simp only [] at h
                            injection h with h1 h2
                            subst h1
                            exact absurd h200 (by simp [internalErrorResponse])
                          | some choice =>
                            rw [hch] at h
                            simp only [] at h
                            cases hcc : choice.content with
                            | none =>
                              rw [hcc] at h
                              simp only [] at h
                              injection h with h1 h2
                              subst h1
                              exact absurd h200 (by simp [internalErrorResponse])
                            | some response =>
                              rw [hcc] at h
                              simp only [] at h
                              by_cases hrne : response = ""
                              · rw [if_pos hrne] at h
                                injection h with h1 h2
                                subst h1
                                exact absurd h200 (by simp [internalErrorResponse])
                              · rw [if_neg hrne] at h
                                cases htts : env.tts (some response) with
                                | none =>
                                  rw [htts] at h
                                  simp only [] at h
                                  injection h with h1 h2
                                  subst h1
                                  exact absurd h200 (by simp [internalErrorResponse])
                                | some voice =>
                                  rw [htts] at h
                                  simp only [] at h
                                  by_cases hok : voice.ok = true
                                  · rw [if_pos hok] at h
                                    injection h with h1 h2
                                    exact ⟨data, transcript, kws, logK, results, logQ,
                                      breakdown, bchoice, analyzed, completion, choice,
                                      response, voice, rfl, ht, htne, hk, hq, hana, hbch,
                                      hbc, hane, hchat, hch, hcc, hrne, htts, hok,
                                      h1.symm, h2.symm⟩
                                  · rw [if_neg hok] at h
                                    injection h with h1 h2
                                    subst h1
                                    exact absurd h200 (by simp [voiceFailedResponse])

theorem POST_kw1_success (env : Env) (form : FormData) (resp : HttpResponse)
    (log : List CallEvent) (h : POST_kw1 env form = (.ok resp, log))
    (h200 : resp.status = 200) :
    ∃ data transcript logT turn0 kws logK results logQ breakdown bchoice completion choice
      voice,
      schemaParse form = some data ∧
      getTranscript env data.input = (some transcript, logT) ∧
      transcript ≠ "" ∧
      data.message.head? = some turn0 ∧
      extractKeywordsJson env turn0.content transcript = (.ok kws, logK) ∧
      queryIndexForKeywords env kws 5 = (.ok results, logQ) ∧
      env.chat (analyzeMsgs results) = some breakdown ∧
      breakdown.choices.head? = some bchoice ∧
      env.chat (kw1FinalMsgs env data transcript (jsToString bchoice.content)) =
        some completion ∧
      completion.choices.head? = some choice ∧
      env.tts choice.content = some voice ∧ voice.ok = true ∧
      resp = ⟨200, Body.stream voice.body,
        successHeaders transcript (jsToString choice.content)⟩ ∧
      log = logT ++ logK ++ logQ ++
        [CallEvent.chatAnalyze (analyzeMsgs results),
          CallEvent.chatFinal (kw1FinalMsgs env data transcript (jsToString bchoice.content)),
          CallEvent.tts choice.content] := by
  cases hparse : schemaParse form with
  | none =>
    rw [POST_kw1, hparse] at h
    simp only [] at h
    injection h with h1 h2
    injection h1 with h1
    subst h1
    exact absurd h200 (by simp [invalidRequestResponse])
  | some data =>
    rw [POST_kw1, hparse] at h
    simp only [] at h
    cases htr : getTranscript env data.input with
    | mk t0 logT =>
      rw [htr] at h
      cases t0 with
      | none =>
        simp only [] at h
        injection h with h1 h2
        injection h1 with h1
        subst h1
        exact absurd h200 (by simp [invalidAudioResponse])
      | some transcript =>
        simp only [] at h
        by_cases htne : transcript = ""
        · rw [if_pos htne] at h
          injection h with h1 h2
          injection h1 with h1
          subst h1
          exact absurd h200 (by simp [invalidAudioResponse])
        · rw [if_neg htne] at h
          cases hm0 : data.message.head? with
          | none =>
            rw [hm0] at h
            simp only [] at h
            injection h with h1 h2
            injection h1
          | some turn0 =>
            rw [hm0] at h
            simp only [] at h
            cases hk : extractKeywordsJson env turn0.content transcript with
            | mk ek logK =>
              rw [hk] at h
              cases ek with
              | error err =>
                simp only [] at h
                injection h with h1 h2
                injection h1
              | ok kws =>
                simp only [] at h
                cases hq : queryIndexForKeywords env kws 5 with
                | mk qr logQ =>
                  rw [hq] at h
                  cases qr with
                  | error err =>
                    simp only [] at h
                    injection h with h1 h2
                    injection h1
                  | ok results =>
                    simp only [] at h
                    cases hana : env.chat (analyzeMsgs results) with
                    | none =>
                      rw [hana] at h
                      simp only [] at h
                      injection h with h1 h2
                      injection h1
                    | some breakdown =>
                      rw [hana] at h
                      simp only [] at h
                      cases hbch : breakdown.choices.head? with
                      | none =>
                        rw [hbch] at h
                        simp only [] at h
                        injection h with h1 h2
                        injection h1
                      | some bchoice =>
                        rw [hbch] at h
                        simp only [] at h
                        cases hchat :
                          env.chat
                            (kw1FinalMsgs env data transcript (jsToString bchoice.content)) with
                        | none =>
                          rw [hchat] at h
                          simp only [] at h
                          injection h with h1 h2
                          injection h1
                        | some completion =>
                          rw [hchat] at h
                          simp only [] at h
                          cases hch : completion.choices.head? with
                          | none =>
                            rw [hch] at h
                            simp only [] at h
                            injection h with h1 h2
                            injection h1
                          | some choice =>
                            rw [hch] at h
                            simp only [] at h
                            cases htts : env.tts choice.content with
                            | none =>
                              rw [htts] at h
                              simp only [] at h
                              injection h with h1 h2
                              injection h1
                            | some voice =>
                              rw [htts] at h
                              simp only [] at h
                              by_cases hok : voice.ok = true
                              · rw [if_pos hok] at h
                                injection h with h1 h2
                                injection h1 with h1
                                exact ⟨data, transcript, logT, turn0, kws, logK, results,
                                  logQ, breakdown, bchoice, completion, choice, voice, rfl,
                                  htr, htne, hm0, hk, hq, hana, hbch, hchat, hch, htts, hok,
                                  h1.symm, h2.symm⟩
                              · rw [if_neg hok] at h
                                injection h with h1 h2
                                injection h1 with h1
                                subst h1
                                exact absurd h200 (by simp [voiceFailedResponse])

/-! ## Trace helpers -/

def isChatFinal : CallEvent → Bool
  | .chatFinal _ => true
  | _ => false

theorem getTranscript_log (env : Env) (i : InputField) :
    (getTranscript env i).2 = [] ∨ ∃ f, (getTranscript env i).2 = [CallEvent.stt f] := by
  cases i with
  | text s => exact Or.inl rfl
  | file f =>
    cases henv : env.stt f with
    | none =>
      rw [getTranscript, henv]
      exact Or.inr ⟨f, rfl⟩
    | some t =>
      rw [getTranscript, henv]
      exact Or.inr ⟨f, rfl⟩

theorem chatFinal_not_in_queryLog (env : Env) (kws : List String) (topK : Nat)
    (msgs : List ChatMsg)
    (hm : CallEvent.chatFinal msgs ∈ (queryIndexForKeywords env kws topK).2) : False := by
  rcases queryIndexForKeywords_events env kws topK _ hm with ⟨q, hq⟩ | ⟨v, k, hv⟩
  · simp at hq
  · simp at hv

/-- C3: for every well-formed multipart request whose `input` field is
text, `getTranscript` returns that text unchanged and performs no
transcription call; on every successful run the X-Transcript header is
exactly the percent-encoding of the input text, and the responder's
final user message consists of that text followed by the analyzed
context. -/
theorem text_passthrough (env : Env) (form : FormData) (data : ParsedData) (s : String)
    (hparse : schemaParse form = some data) (hi : data.input = .text s) :
    getTranscript env data.input = (some s, []) ∧
      ∀ resp log, POST_kw1 env form = (.ok resp, log) → resp.status = 200 →
        resp.headers.head? = some ("X-Transcript", encodeURIComponent s) ∧
        ∀ msgs, CallEvent.chatFinal msgs ∈ log →
          ∃ ctx, msgs.getLast? =
            some (ChatMsg.mk "user" (s ++ "\n\nAnalyzed Context:\n" ++ ctx)) := by
  have hg : getTranscript env data.input = (some s, []) := by rw [hi, getTranscript]
  refine ⟨hg, ?_⟩
  intro resp log hrun h200
  obtain ⟨data2, transcript, logT, turn0, kws, logK, results, logQ, breakdown, bchoice,
    completion, choice, voice, hparse2, htr, htne, hm0, hk, hq, hana, hbch, hchat, hch,
    htts, hok, hresp, hlog⟩ := POST_kw1_success env form resp log hrun h200
  rw [hparse] at hparse2
  injection hparse2 with hdd
  subst hdd
  rw [hg] at htr
  injection htr with hts hlt
  injection hts with hts
  subst hts
  constructor
  · rw [hresp]
    rfl
  · intro msgs hmem
    subst hlt
    rw [hlog] at hmem
    have hKK : logK = [CallEvent.chatKeywords (kwMsgs1 turn0.content s)] :=
      (congrArg Prod.snd hk).symm
    rw [hKK] at hmem
    simp only [List.nil_append, List.append_assoc, List.mem_append, List.mem_cons,
      List.mem_singleton, List.not_mem_nil, or_false] at hmem
    rcases hmem with hm | hm | hm | hm | hm
    · simp at hm
    · exact absurd (by rw [hq] : (queryIndexForKeywords env kws 5).2 = logQ) (by
        intro h2
        exact chatFinal_not_in_queryLog env kws 5 msgs (h2 ▸ hm))
    · simp at hm
    · injection hm with hm
      subst hm
      refine ⟨jsToString bchoice.content, ?_⟩
      rw [kw1FinalMsgs, ← List.cons_append, List.getLast?_concat]
      rfl
    · simp at hm

/-- An environment whose speech-recognition call raises. -/
def envC4 : Env :=
  { stt := fun _ => none
    embed := fun _ => some []
    query := fun _ _ => some []
    chat := fun _ => some ⟨[⟨some "ok"⟩]⟩
    tts := fun _ => some ⟨true, [], ""⟩
    locationStr := "L"
    timeStr := "T" }

/-- C4: for every request with an audio `input` for which the
speech-recognition call raises, or whose recognized text is empty after
trimming, the endpoint returns 400 "Invalid audio" and the trace is
exactly the one transcription call — no embedding, vector-index,
chat-completion, or text-to-speech call. -/
theorem audio_short_circuit (env : Env) (form : FormData) (data : ParsedData) (f : Nat)
    (hparse : schemaParse form = some data)
    (hi : data.input = .file f)
    (hfail : env.stt f = none ∨ ∃ t, env.stt f = some t ∧ jsTrim t = "") :
    POST_kw1 env form = (.ok invalidAudioResponse, [CallEvent.stt f]) := by
  have htr : getTranscript env data.input = (none, [CallEvent.stt f]) := by
    rcases hfail with hnone | ⟨t, hst, htrm⟩
    · rw [hi, getTranscript, hnone]
    · rw [hi, getTranscript, hst]
      simp only []
      rw [if_pos htrm]
  rw [POST_kw1, hparse]
  simp only []
  rw [htr]

set_option maxRecDepth 100000 in
theorem audio_short_circuit_witness :
    POST_kw1 envC4 ⟨some (.file 7), []⟩ =
      (.ok invalidAudioResponse, [CallEvent.stt 7]) :=
  audio_short_circuit envC4 ⟨some (.file 7), []⟩ ⟨.file 7, []⟩ 7 rfl rfl (Or.inl rfl)

/-- C10: a well-formed multipart request whose `message` list is empty
passes schema validation, and the keyword-strategy handler then reads
`data.message[0].content` on the empty array and throws a TypeError
instead of returning an HTTP response. -/
theorem empty_history_typeerror :
    schemaParse ⟨some (.text "Hello"), []⟩ = some ⟨.text "Hello", []⟩ ∧
      POST_kw1 envOk ⟨some (.text "Hello"), []⟩ =
        (.error (.typeError "Cannot read properties of undefined"), []) :=
  ⟨rfl, rfl⟩

/-- C7: on every successful part_000 run the responder makes exactly one
chat-completion call, and its message list is, in order: the fixed
persona system message, the caller-supplied turns verbatim in their
original order, and one final user message whose content is the
transcript concatenated with the retrieved context. -/
theorem responder_message_order (env : Env) (form : FormData) (resp : HttpResponse)
    (log : List CallEvent) (h : POST_direct env form = (.ok resp, log))
    (h200 : resp.status = 200) :
    ∃ data transcript logT ctx,
      schemaParse form = some data ∧
      getTranscript env data.input = (some transcript, logT) ∧
      log.filter isChatFinal =
        [CallEvent.chatFinal
          (ChatMsg.mk "system" (personaDirect env.locationStr env.timeStr) ::
            (data.message.map turnMsg ++
              [ChatMsg.mk "user" (transcript ++ "\n\nAdditional Context:\n" ++ ctx)]))] := by
  obtain ⟨data, transcript, logT, emb, logE, snips, logQ, completion, choice, hparse, htr,
    htne, hge, hqi, hchat, hch, hresp, hlog⟩ := POST_direct_success env form resp log h h200
  refine ⟨data, transcript, logT, joinNewline (snips.map fun r => joinElem r.text),
    hparse, htr, ?_⟩
  have hE : logE = [CallEvent.embed transcript] := (congrArg Prod.snd hge).symm
  have hQ : logQ = [CallEvent.indexQuery emb 5] := (congrArg Prod.snd hqi).symm
  have hT : logT.filter isChatFinal = [] := by
    have hsnd : (getTranscript env data.input).2 = logT := by rw [htr]
    rcases getTranscript_log env data.input with h0 | ⟨f, h0⟩ <;> rw [hsnd] at h0 <;>
      rw [h0] <;> rfl
  rw [hlog, hE, hQ, List.filter_append, List.filter_append, List.filter_append, hT]
  rfl

def formOk : FormData := ⟨some (.text "What is Asycd?"), [.entry "user" "hi"]⟩

def formNoMsg : FormData := ⟨some (.text "What is Asycd?"), []⟩

def dataOk : ParsedData := ⟨.text "What is Asycd?", [⟨Role.user, "hi"⟩]⟩

def respDirectOk : HttpResponse :=
  ⟨200, Body.text "Hello!",
    [("X-Transcript", "What%20is%20Asycd%3F"), ("X-Response", "Hello!")]⟩

def logDirectOk : List CallEvent :=
  [CallEvent.embed "What is Asycd?", CallEvent.indexQuery [1, 2] 5,
    CallEvent.chatFinal (directFinalMsgs envOk dataOk "What is Asycd?" [snippetOk])]

set_option maxRecDepth 400000 in
theorem responder_message_order_witness :
    ∃ data transcript logT ctx,
      schemaParse formOk = some data ∧
      getTranscript envOk data.input = (some transcript, logT) ∧
      logDirectOk.filter isChatFinal =
        [CallEvent.chatFinal
          (ChatMsg.mk "system" (personaDirect envOk.locationStr envOk.timeStr) ::
            (data.message.map turnMsg ++
              [ChatMsg.mk "user" (transcript ++ "\n\nAdditional Context:\n" ++ ctx)]))] :=
  responder_message_order envOk formOk respDirectOk logDirectOk rfl rfl

/-- C5: on every successful run of the voice pipeline (part_002) and of
the text pipeline (part_000), the X-Transcript and X-Response response
headers are the `encodeURIComponent` images of the transcript and reply
used internally, and percent-decoding them yields exactly those
strings back (round trip). -/
theorem header_roundtrip (env : Env) (form : FormData) (resp1 resp2 : HttpResponse)
    (log1 log2 : List CallEvent)
    (h1 : POST_v2 env form = (resp1, log1)) (h1s : resp1.status = 200)
    (h2 : POST_direct env form = (.ok resp2, log2)) (h2s : resp2.status = 200) :
    (∃ data transcript response,
      schemaParse form = some data ∧
      getTranscriptStub data.input = some transcript ∧
      CallEvent.tts (some response) ∈ log1 ∧
      resp1.headers = successHeaders transcript response ∧
      decodeURIComponent (encodeURIComponent transcript) = some transcript ∧
      decodeURIComponent (encodeURIComponent response) = some response) ∧
    (∃ data transcript logT msgs completion choice,
      schemaParse form = some data ∧
      getTranscript env data.input = (some transcript, logT) ∧
      CallEvent.chatFinal msgs ∈ log2 ∧
      env.chat msgs = some completion ∧
      completion.choices.head? = some choice ∧
      resp2.headers = successHeaders transcript (jsToString choice.content) ∧
      decodeURIComponent (encodeURIComponent transcript) = some transcript ∧
      decodeURIComponent (encodeURIComponent (jsToString choice.content)) =
        some (jsToString choice.content)) := by
  constructor
  · obtain ⟨data, transcript, kws, logK, results, logQ, breakdown, bchoice, analyzed,
      completion, choice, response, voice, hparse, ht, htne, hk, hq, hana, hbch, hbc, hane,
      hchat, hch, hcc, hrne, htts, hok, hresp, hlog⟩ :=
      POST_v2_success env form resp1 log1 h1 h1s
    refine ⟨data, transcript, response, hparse, ht, ?_, ?_, decode_encodeURIComponent _,
      decode_encodeURIComponent _⟩
    · rw [hlog]
      simp
    · rw [hresp]
  · obtain ⟨data, transcript, logT, emb, logE, snips, logQ, completion, choice, hparse, htr,
      htne, hge, hqi, hchat, hch, hresp, hlog⟩ :=
      POST_direct_success env form resp2 log2 h2 h2s
    refine ⟨data, transcript, logT, directFinalMsgs env data transcript snips, completion,
      choice, hparse, htr, ?_, hchat, hch, ?_, decode_encodeURIComponent _,
      decode_encodeURIComponent _⟩
    · rw [hlog]
      simp
    · rw [hresp]

def resultsOk : List KeywordQueryResult := [⟨"alpha", [snippetOk]⟩, ⟨"beta", [snippetOk]⟩]

def respV2Ok : HttpResponse :=
  ⟨200, Body.stream [0, 1, 2],
    [("X-Transcript", "What%20is%20Asycd%3F"), ("X-Response", "Hello!")]⟩

def logV2Ok : List CallEvent :=
  [CallEvent.chatKeywords (kwMsgs2 "What is Asycd?"), CallEvent.embed "alpha",
    CallEvent.indexQuery [1, 2] 5, CallEvent.embed "beta", CallEvent.indexQuery [1, 2] 5,
    CallEvent.chatAnalyze (analyzeMsgs resultsOk),
    CallEvent.chatFinal (v2FinalMsgs envOk dataOk "What is Asycd?" "digest"),
    CallEvent.tts (some "Hello!")]

set_option maxRecDepth 400000 in
theorem header_roundtrip_witness :
    (∃ data transcript response,
      schemaParse formOk = some data ∧
      getTranscriptStub data.input = some transcript ∧
      CallEvent.tts (some response) ∈ logV2Ok ∧
      respV2Ok.headers = successHeaders transcript response ∧
      decodeURIComponent (encodeURIComponent transcript) = some transcript ∧
      decodeURIComponent (encodeURIComponent response) = some response) ∧
    (∃ data transcript logT msgs completion choice,
      schemaParse formOk = some data ∧
      getTranscript envOk data.input = (some transcript, logT) ∧
      CallEvent.chatFinal msgs ∈ logDirectOk ∧
      envOk.chat msgs = some completion ∧
      completion.choices.head? = some choice ∧
      respDirectOk.headers = successHeaders transcript (jsToString choice.content) ∧
      decodeURIComponent (encodeURIComponent transcript) = some transcript ∧
      decodeURIComponent (encodeURIComponent (jsToString choice.content)) =
        some (jsToString choice.content)) :=
  header_roundtrip envOk formOk respV2Ok respDirectOk logV2Ok logDirectOk rfl rfl rfl rfl

set_option maxRecDepth 400000 in
theorem text_passthrough_witness :
    getTranscript envOk dataOk.input = (some "What is Asycd?", []) ∧
      ∀ resp log, POST_kw1 envOk formOk = (.ok resp, log) → resp.status = 200 →
        resp.headers.head? = some ("X-Transcript", encodeURIComponent "What is Asycd?") ∧
        ∀ msgs, CallEvent.chatFinal msgs ∈ log →
          ∃ ctx, msgs.getLast? =
            some (ChatMsg.mk "user" ("What is Asycd?" ++ "\n\nAnalyzed Context:\n" ++ ctx)) :=
  text_passthrough envOk formOk dataOk "What is Asycd?" rfl rfl

/-- A part_000 run never answers 400 "Invalid request" once the schema
has accepted the form. -/
theorem POST_direct_invalidRequest (env : Env) (form : FormData) (log : List CallEvent)
    (h : POST_direct env form = (.ok invalidRequestResponse, log)) :
    schemaParse form = none := by
  cases hparse : schemaParse form with
  | none => rfl
  | some data =>
    exfalso
    rw [POST_direct, hparse] at h
    simp only [] at h
    cases htr : getTranscript env data.input with
    | mk t0 logT =>
      rw [htr] at h
      cases t0 with
      | none =>
        simp only [] at h
        injection h with h1 h2
        injection h1 with h1
        exact absurd h1 (by simp [invalidAudioResponse, invalidRequestResponse])
      | some transcript =>
        simp only [] at h
        by_cases htne : transcript = ""
        · rw [if_pos htne] at h
          injection h with h1 h2
          injection h1 with h1
          exact absurd h1 (by simp [invalidAudioResponse, invalidRequestResponse])
        · rw [if_neg htne] at h
          cases hge : getQueryEmbedding env transcript with
          | mk e logE =>
            rw [hge] at h
            cases e with
            | error err =>
              simp only [] at h
              injection h with h1 h2
              injection h1
            | ok emb =>
              simp only [] at h
              cases hqi : queryIndex env emb 5 with
              | mk q logQ =>
                rw [hqi] at h
                cases q with
                | error err =>
                  simp only [] at h
                  injection h with h1 h2
                  injection h1
                | ok snips =>
                  simp only [] at h
                  cases hchat : env.chat (directFinalMsgs env data transcript snips) with
                  | none =>
                    rw [hchat] at h
                    simp only [] at h
                    injection h with h1 h2
                    injection h1
                  | some completion =>
                    rw [hchat] at h
                    simp only [] at h
                    cases hch : completion.choices.head? with
                    | none =>
                      rw [hch] at h
                      simp only [] at h
                      injection h with h1 h2
                      injection h1
                    | some choice =>
                      rw [hch] at h
                      simp only [] at h
                      injection h with h1 h2
                      injection h1 with h1
                      exact absurd h1 (by simp [invalidRequestResponse])

set_option maxRecDepth 400000 in
/-- C6 counterexample: a multipart request with no `message` entries at
all parses successfully (with an empty conversation list) and the
endpoint processes it to a 200 response — not HTTP 400
"Invalid request" as the claim states. -/
theorem missing_message_counterexample :
    schemaParse formNoMsg = some ⟨.text "What is Asycd?", []⟩ ∧
      (POST_direct envOk formNoMsg).1 =
        .ok ⟨200, Body.text "Hello!",
          [("X-Transcript", "What%20is%20Asycd%3F"), ("X-Response", "Hello!")]⟩ :=
  ⟨rfl, rfl⟩

/-- C6 amended: a multipart request that omits the `message` field
entirely passes schema validation — `zfd.repeatableOfType` preprocesses
the missing repeated field to an empty list — and the endpoint does not
answer 400 "Invalid request" for it. -/
theorem missing_message_parses (env : Env) (form : FormData) (s : String)
    (hin : form.input = some (.text s)) (hs : s ≠ "") (hm : form.messageEntries = []) :
    schemaParse form = some ⟨.text s, []⟩ ∧
      ∀ resp log, POST_direct env form = (.ok resp, log) →
        resp ≠ invalidRequestResponse := by
  have hp : schemaParse form = some ⟨.text s, []⟩ := by
    rw [schemaParse, hin]
    simp only []
    rw [parseInput, if_neg hs]
    simp only []
    rw [hm]
    rfl
  refine ⟨hp, ?_⟩
  intro resp log h heq
  subst heq
  have hnone := POST_direct_invalidRequest env form log h
  rw [hp] at hnone
  cases hnone

theorem missing_message_parses_witness :
    schemaParse formNoMsg = some ⟨.text "What is Asycd?", []⟩ ∧
      ∀ resp log, POST_direct envOk formNoMsg = (.ok resp, log) →
        resp ≠ invalidRequestResponse :=
  missing_message_parses envOk formNoMsg "What is Asycd?" rfl (by decide) rfl

/-- An environment whose chat-completion service always answers with a
null message content. -/
def envNullReply : Env := { envOk with chat := fun _ => some ⟨[⟨none⟩]⟩ }

set_option maxRecDepth 400000 in
/-- C8 counterexample: in part_000 a chat completion whose message
content is missing (null) does not terminate the request with HTTP 500 —
the handler returns a 200 success response with an empty body and an
X-Response header holding the encoded string coercion "null". -/
theorem empty_reply_counterexample :
    (POST_direct envNullReply formNoMsg).1 =
      .ok ⟨200, Body.empty,
        [("X-Transcript", "What%20is%20Asycd%3F"), ("X-Response", "null")]⟩ :=
  rfl

/-- C8 amended: in the part_002 pipeline, which validates the completion
content, every run whose final chat call yields an empty or missing
message content terminates with HTTP 500 "Internal server error" — a
response with no success body and no X-Response header.  (part_000 lacks
the check; see the counterexample.) -/
theorem empty_reply_fatal_v2 (env : Env) (form : FormData) (data : ParsedData)
    (transcript : String) (kws : List String) (logK : List CallEvent)
    (results : List KeywordQueryResult) (logQ : List CallEvent)
    (breakdown : ChatCompletion) (bchoice : ChatChoiceMsg) (analyzed : String)
    (completion : ChatCompletion)
    (hparse : schemaParse form = some data)
    (ht : getTranscriptStub data.input = some transcript) (htne : transcript ≠ "")
    (hk : extractKeywords2 env transcript = (.ok kws, logK))
    (hq : queryIndexForKeywords env kws 5 = (.ok results, logQ))
    (hana : env.chat (analyzeMsgs results) = some breakdown)
    (hbch : breakdown.choices.head? = some bchoice)
    (hbc : bchoice.content = some analyzed) (hane : analyzed ≠ "")
    (hchat : env.chat (v2FinalMsgs env data transcript analyzed) = some completion)
    (hempty : ∀ choice, completion.choices.head? = some choice →
      choice.content = none ∨ choice.content = some "") :
    (POST_v2 env form).1 = internalErrorResponse := by
  rw [POST_v2, hparse]
  simp only []
  rw [ht]
  simp only []
  rw [if_neg htne, hk]
  simp only []
  rw [hq]
  simp only []
  rw [hana]
  simp only []
  rw [hbch]
  simp only []
  rw [hbc]
  simp only []
  rw [if_neg hane, hchat]
  simp only []
  cases hch : completion.choices.head? with
  | none => rfl
  | some choice =>
    rcases hempty choice hch with hc | hc
    · simp only []
      rw [hc]
    · simp only []
      rw [hc]
      simp only []
      rw [if_pos trivial]

/-- An environment in which keyword extraction and analysis succeed but
the responder's completion carries a null content. -/
def envNullFinal : Env :=
  { envOk with
    chat := fun msgs =>
      if msgs.head?.map ChatMsg.content = some kwSystemPrompt2 then
        some ⟨[⟨some "alpha, beta"⟩]⟩
      else if msgs.head?.map ChatMsg.content = some analyzeSystemPrompt then
        some ⟨[⟨some "digest"⟩]⟩
      else some ⟨[⟨none⟩]⟩ }

set_option maxRecDepth 400000 in
theorem empty_reply_fatal_v2_witness :
    (POST_v2 envNullFinal formOk).1 = internalErrorResponse :=
  empty_reply_fatal_v2 envNullFinal formOk dataOk "What is Asycd?" ["alpha", "beta"]
    [CallEvent.chatKeywords (kwMsgs2 "What is Asycd?")] resultsOk
    [CallEvent.embed "alpha", CallEvent.indexQuery [1, 2] 5, CallEvent.embed "beta",
      CallEvent.indexQuery [1, 2] 5]
    ⟨[⟨some "digest"⟩]⟩ ⟨some "digest"⟩ "digest" ⟨[⟨none⟩]⟩
    rfl rfl (by decide) rfl rfl rfl rfl rfl (by decide) rfl
    (by
      intro choice hc
      injection hc with hc
      subst hc
      exact Or.inl rfl)

/-- C9: for every part_002 run whose text-to-speech call returns a
non-success HTTP status, the endpoint answers 500 "Voice synthesis
failed" (a response with no headers), while the completion stage has
already succeeded: the trace records the responder call and the
text-to-speech call carrying the very reply that the X-Response header
is computed from on success, and the transcript for X-Transcript is the
one fixed by the (successful) transcription stage. -/
theorem voice_failure_isolated (env : Env) (form : FormData) (data : ParsedData)
    (transcript : String) (kws : List String) (logK : List CallEvent)
    (results : List KeywordQueryResult) (logQ : List CallEvent)
    (breakdown : ChatCompletion) (bchoice : ChatChoiceMsg) (analyzed : String)
    (completion : ChatCompletion) (choice : ChatChoiceMsg) (response : String)
    (voice : TtsResult)
    (hparse : schemaParse form = some data)
    (ht : getTranscriptStub data.input = some transcript) (htne : transcript ≠ "")
    (hk : extractKeywords2 env transcript = (.ok kws, logK))
    (hq : queryIndexForKeywords env kws 5 = (.ok results, logQ))
    (hana : env.chat (analyzeMsgs results) = some breakdown)
    (hbch : breakdown.choices.head? = some bchoice)
    (hbc : bchoice.content = some analyzed) (hane : analyzed ≠ "")
    (hchat : env.chat (v2FinalMsgs env data transcript analyzed) = some completion)
    (hch : completion.choices.head? = some choice)
    (hcc : choice.content = some response) (hrne : response ≠ "")
    (htts : env.tts (some response) = some voice) (hnok : voice.ok = false) :
    POST_v2 env form = (voiceFailedResponse,
      logK ++ logQ ++
        [CallEvent.chatAnalyze (analyzeMsgs results),
          CallEvent.chatFinal (v2FinalMsgs env data transcript analyzed),
          CallEvent.tts (some response)]) := by
  rw [POST_v2, hparse]
  simp only []
  rw [ht]
  simp only []
  rw [if_neg htne, hk]
  simp only []
  rw [hq]
  simp only []
  rw [hana]
  simp only []
  rw [hbch]
  simp only []
  rw [hbc]
  simp only []
  rw [if_neg hane, hchat]
  simp only []
  rw [hch]
  simp only []
  rw [hcc]
  simp only []
  rw [if_neg hrne, htts]
  simp only []
  rw [if_neg (by simp [hnok])]

/-- An environment whose text-to-speech service answers with a non-ok
HTTP status. -/
def envTtsFails : Env := { envOk with tts := fun _ => some ⟨false, [], "upstream error"⟩ }

set_option maxRecDepth 400000 in
theorem voice_failure_isolated_witness :
    POST_v2 envTtsFails formOk = (voiceFailedResponse,
      [CallEvent.chatKeywords (kwMsgs2 "What is Asycd?")] ++
        [CallEvent.embed "alpha", CallEvent.indexQuery [1, 2] 5, CallEvent.embed "beta",
          CallEvent.indexQuery [1, 2] 5] ++
        [CallEvent.chatAnalyze (analyzeMsgs resultsOk),
          CallEvent.chatFinal (v2FinalMsgs envTtsFails dataOk "What is Asycd?" "digest"),
          CallEvent.tts (some "Hello!")]) :=
  voice_failure_isolated envTtsFails formOk dataOk "What is Asycd?" ["alpha", "beta"]
    [CallEvent.chatKeywords (kwMsgs2 "What is Asycd?")] resultsOk
    [CallEvent.embed "alpha", CallEvent.indexQuery [1, 2] 5, CallEvent.embed "beta",
      CallEvent.indexQuery [1, 2] 5]
    ⟨[⟨some "digest"⟩]⟩ ⟨some "digest"⟩ "digest" ⟨[⟨some "Hello!"⟩]⟩ ⟨some "Hello!"⟩
    "Hello!" ⟨false, [], "upstream error"⟩
    rfl rfl (by decide) rfl rfl rfl rfl rfl (by decide) rfl rfl rfl (by decide) rfl rfl

end Asyra
